import Mathlib

/-!
# tcolorswap: palette swap of a GIF image

A shallow embedding of `src/src/tcolorswap.c` (the command line variant of the
program) and the properties of its palette locator, palette swap, pixel
translation and record dispatch loop, and of `src/tcolorswap.c` (the variant with
the file names written in the source), whose `exitnow` returns to its caller.

Conventions of the embedding

* `GifByteType` and `GifPixelType` are `unsigned char` in giflib: they are
  modelled as `Nat`, and a store of an `int` into one of them is written with an
  explicit `% 256`.
* `int` variables (`marked_posidx`) are `Int`.
* A C array is a `List`; an access outside of it is undefined behaviour in C and
  is `none` in the model.
* The decoding and encoding library (giflib) is not part of the program: what it
  answers is a parameter of the model (`World`, `GifFileType.records`), and the
  calls the program makes to it are recorded in a trace of `Event`s.
-/

set_option autoImplicit false

namespace TColorSwap

/-! ## Data model (giflib types the program uses) -/

/-- `GifByteType` of giflib: `unsigned char`. -/
abbrev GifByteType := Nat

/-- `GifPixelType` of giflib: `unsigned char`, an index into a color map. -/
abbrev GifPixelType := Nat

/-- `GifColorType` of giflib: one entry of a color map. -/
structure GifColorType where
  Red : GifByteType
  Green : GifByteType
  Blue : GifByteType
  deriving DecidableEq, Repr

/-- `ColorMapObject` of giflib; `ColorCount` is the number of entries of `Colors`. -/
structure ColorMapObject where
  Colors : List GifColorType
  deriving DecidableEq, Repr

/-- Field `ColorCount` of a color map object. -/
def ColorMapObject.ColorCount (m : ColorMapObject) : Nat := m.Colors.length

/-! ## Palette locator (`main`, lines 239-275) -/

/-- The test of the locator loop: `c.Red == target.Red && c.Green == target.Green
&& c.Blue == target.Blue`. -/
def colorMatches (c target_trans_color : GifColorType) : Bool :=
  c.Red == target_trans_color.Red &&
  c.Green == target_trans_color.Green &&
  c.Blue == target_trans_color.Blue

/-- The two ways the locator makes the run fail. -/
inductive LocatorError where
  | ColorNotFound
  | DuplicateColor
  deriving DecidableEq, Repr

/-- The loop `for (int i=0; i<num_color_colormap; ++i)` of `main`, run on the
entries that are left (`i` is the index of the first of them) from the loop state
`found`, `marked_posidx`. `none`: the loop met a second match and left the program
through `exitnow`; `some (found, marked_posidx)`: the state after the loop. -/
def locatorLoop (target_trans_color : GifColorType) :
    List GifColorType → Nat → Bool → Int → Option (Bool × Int)
  | [], _, found, marked_posidx => some (found, marked_posidx)
  | c :: rest, i, found, marked_posidx =>
    if colorMatches c target_trans_color then
      if found then none
      else locatorLoop target_trans_color rest (i + 1) true (i : Int)
    else locatorLoop target_trans_color rest (i + 1) found marked_posidx

/-- The palette locator of `main`: the loop from `found = false`,
`marked_posidx = -1`, then the test `if (!found)`. -/
def locator (filein_colors : List GifColorType) (target_trans_color : GifColorType) :
    Except LocatorError Int :=
  match locatorLoop target_trans_color filein_colors 0 false (-1) with
  | none => .error .DuplicateColor
  | some (found, marked_posidx) =>
    if !found then .error .ColorNotFound else .ok marked_posidx

/-! ## Palette swap (`main`, lines 277-280) -/

/-- The three assignments
`temp_color = filein_colors[marked_posidx]; filein_colors[marked_posidx] =
filein_colors[0]; filein_colors[0] = temp_color;`.
`none` when one of the two reads is outside of the array. -/
def swapColors (filein_colors : List GifColorType) (marked_posidx : Nat) :
    Option (List GifColorType) :=
  match filein_colors[marked_posidx]?, filein_colors[0]? with
  | some temp_color, some first => some ((filein_colors.set marked_posidx first).set 0 temp_color)
  | _, _ => none

/-! ## Pixel translation (`main`, lines 360-370) -/

/-- The body of the translation loop on one pixel `*cp`:
`if (*cp == marked_posidx) *cp = 0; else if (*cp == 0) *cp = marked_posidx;`.
The comparison is made on `int`; the store of `marked_posidx` into the
`unsigned char` keeps its low 8 bits. -/
def remap (marked_posidx : Int) (cp : GifPixelType) : GifPixelType :=
  if (cp : Int) = marked_posidx then 0
  else if cp = 0 then (marked_posidx % 256).toNat
  else cp

/-- The loop `for (cp = line; cp < line + bound; ++cp)` over the line buffer:
the first `bound` entries of the buffer are translated, the others are left. -/
def translate (marked_posidx : Int) : Nat → List GifPixelType → List GifPixelType
  | 0, line => line
  | _ + 1, [] => []
  | bound + 1, cp :: rest => remap marked_posidx cp :: translate marked_posidx bound rest

/-- Look up of a pixel value in a color table. -/
def lookup (table : List GifColorType) (v : GifPixelType) : Option GifColorType :=
  table[v]?

/-! ## The decoding and encoding library as seen by `main` -/

/-- `GifRecordType` of giflib. -/
inductive GifRecordType where
  | UNDEFINED_RECORD_TYPE
  | SCREEN_DESC_RECORD_TYPE
  | IMAGE_DESC_RECORD_TYPE
  | EXTENSION_RECORD_TYPE
  | TERMINATE_RECORD_TYPE
  deriving DecidableEq, Repr

/-- `GifImageDesc` of giflib (field `Image` of the input file after
`DGifGetImageDesc`); `ColorMap` is the local color map, `none` for `NULL`. -/
structure GifImageDesc where
  Left : Nat
  Top : Nat
  Width : Nat
  Height : Nat
  Interlace : Bool
  ColorMap : Option ColorMapObject
  deriving DecidableEq, Repr

/-- An extension sub-block as `DGifGetExtension` and `DGifGetExtensionNext` hand
it out through `extension`: `count` is `extension[0]`, `bytes` is what
`extension + 1` points to. -/
structure ExtensionBlock where
  count : GifByteType
  bytes : List GifByteType
  deriving DecidableEq, Repr

/-- What the decoder answers during one turn of the record loop, by the record
type that `DGifGetRecordType` gives.

* `image desc lines`: `desc` is the answer of `DGifGetImageDesc` (`none` for
  `GIF_ERROR`); `lines` are the answers of the successive calls of `DGifGetLine`
  (`none` for `GIF_ERROR`; no answer left is `GIF_ERROR` too).
* `extension extcode chain`: `chain` are the answers of `DGifGetExtension` and of
  the successive calls of `DGifGetExtensionNext`: `some b` for a sub-block, `none`
  for `GIF_ERROR`, and no answer left for the `NULL` that ends the chain. -/
inductive Record where
  | image (desc : Option GifImageDesc) (lines : List (Option (List GifPixelType)))
  | extension (extcode : Int) (chain : List (Option ExtensionBlock))
  | terminate
  | undefined
  | screenDesc
  deriving DecidableEq, Repr

/-- The record type `DGifGetRecordType` stores in `record_type`. -/
def Record.type : Record → GifRecordType
  | .image _ _ => .IMAGE_DESC_RECORD_TYPE
  | .extension _ _ => .EXTENSION_RECORD_TYPE
  | .terminate => .TERMINATE_RECORD_TYPE
  | .undefined => .UNDEFINED_RECORD_TYPE
  | .screenDesc => .SCREEN_DESC_RECORD_TYPE

/-- `GifFileType` of giflib for the input file, as `DGifOpenFileName` returns it.
`records` are the answers of the successive calls of `DGifGetRecordType` (`none`
for `GIF_ERROR`; no answer left, the end of the file, is `GIF_ERROR` too). -/
structure GifFileType where
  SWidth : Nat
  SHeight : Nat
  SColorResolution : Nat
  SBackGroundColor : Nat
  SColorMap : Option ColorMapObject
  records : List (Option Record)
  deriving Repr

/-- A call of `main` that is visible from outside: the calls on the output file,
the calls that release a resource, and the texts printed. -/
inductive Event where
  | EGifOpenFileName (name : String)
  | EGifSetGifVersion (gif89 : Bool)
  | EGifPutScreenDesc (Width Height ColorRes BackGround : Nat) (ColorMap : ColorMapObject)
  | EGifPutImageDesc (Left Top Width Height : Nat) (Interlace : Bool)
      (ColorMap : Option ColorMapObject)
  | EGifPutLine (line : List GifPixelType)
  | EGifPutExtensionLeader (extcode : Int)
  | EGifPutExtensionBlock (count : GifByteType) (bytes : List GifByteType)
  | EGifPutExtensionTrailer
  | EGifCloseFile
  | DGifCloseFile
  | GifFreeMapObject
  | stderr (text : String)
  | stdout (text : String)
  deriving DecidableEq, Repr

/-- Whether an event is a call on the output file. -/
def Event.onOutput : Event → Bool
  | .EGifOpenFileName _ => true
  | .EGifSetGifVersion _ => true
  | .EGifPutScreenDesc _ _ _ _ _ => true
  | .EGifPutImageDesc _ _ _ _ _ _ => true
  | .EGifPutLine _ => true
  | .EGifPutExtensionLeader _ => true
  | .EGifPutExtensionBlock _ _ => true
  | .EGifPutExtensionTrailer => true
  | .EGifCloseFile => true
  | _ => false

/-- What does not depend on the program: the answers of the library.

* `DGifOpenFileName name`: the input file, `none` for `NULL`.
* `mapObjectMade`: whether `GifMakeMapObject` returns an object (not `NULL`).
* `EGifOpenFileName name`: `none` when the output file is opened, `some
  error_code` when the call returns `NULL`.
* `GIF_ERROR tr e`: whether the call `e` on the output file, made after the calls
  `tr`, returns `GIF_ERROR`.
* `DGifCloseFile`, `EGifCloseFile`: `some error_code` when closing returns
  `GIF_ERROR`. -/
structure World where
  DGifOpenFileName : String → Option GifFileType
  mapObjectMade : Bool
  EGifOpenFileName : String → Option Int
  GIF_ERROR : List Event → Event → Bool
  DGifCloseFile : Option Int
  EGifCloseFile : Option Int

/-- `GifMakeMapObject(ColorCount, ColorMap)`: a new object with a copy of the
first `ColorCount` entries of `ColorMap`, or `NULL`. -/
def GifMakeMapObject (w : World) (ColorCount : Nat) (ColorMap : List GifColorType) :
    Option ColorMapObject :=
  if w.mapObjectMade then some ⟨ColorMap.take ColorCount⟩ else none

/-- How a run ends: `exit(status)` or `return status` of `main`, or a crash
(undefined behaviour: a `NULL` pointer is dereferenced or an array is accessed
outside of its bounds). -/
inductive Outcome where
  | exit (status : Int)
  | crash
  deriving DecidableEq, Repr

/-- A finished run: the events in the order they happened, and how it ended. -/
structure Run where
  trace : List Event
  outcome : Outcome
  deriving DecidableEq, Repr

/-! ## The helper functions of `tcolorswap.c` -/

/-- `close_dgiffile`: closes the input file; a failure is only reported. -/
def close_dgiffile (w : World) (tr : List Event) : List Event :=
  match w.DGifCloseFile with
  | some error_code =>
    tr ++ [.DGifCloseFile,
      .stderr ("Error closing decoding file [error code: " ++ toString error_code ++ "]\n")]
  | none => tr ++ [.DGifCloseFile]

/-- `close_egiffile`: closes the output file; a failure is only reported. -/
def close_egiffile (w : World) (tr : List Event) : List Event :=
  match w.EGifCloseFile with
  | some error_code =>
    tr ++ [.EGifCloseFile,
      .stderr ("Error closing encoding file [error code: " ++ toString error_code ++ "]\n")]
  | none => tr ++ [.EGifCloseFile]

/-- `free_mapobject`. -/
def free_mapobject (tr : List Event) : List Event :=
  tr ++ [.GifFreeMapObject]

/-- `cleanup_res(filein, fileout, filein_mapobject)`; each argument tells whether
the pointer passed is not `NULL`. -/
def cleanup_res (w : World) (filein fileout filein_mapobject : Bool) (tr : List Event) :
    List Event :=
  let tr := if filein then close_dgiffile w tr else tr
  let tr := if fileout then close_egiffile w tr else tr
  if filein_mapobject then free_mapobject tr else tr

/-- `cli_print_usage`. -/
def cli_print_usage (tr : List Event) : List Event :=
  tr ++ [
    .stdout "tcolorswap by Wasin Thonkaew (Angry Baozi Entertainment https://abzi.co\n\n",
    .stdout "Usage: tcolorswap red-value green-value blue-value input-file output-file\n\n",
    .stdout "  red-value    - red color component value\n",
    .stdout "  green-value  - green color component value\n",
    .stdout "  blue-value   - blue color component value\n",
    .stdout "  input-file   - input gif file to modify its color map\n",
    .stdout "  output-file  - output gif file to output the result\n"]

namespace CLI

/-- `exitnow(status, err_str_format, ...)` of `src/src/tcolorswap.c`: prints the
text to standard error, then `exit(status)`. `text` is the formatted text. -/
def exitnow (status : Int) (text : String) (tr : List Event) : Run :=
  ⟨tr ++ [.stderr text], .exit status⟩

/-- The fatal error path of the record loop:
`cleanup_res(&gif_filein, &gif_fileout, &colormap); exitnow(1, text);`. -/
def fatal (w : World) (text : String) (tr : List Event) : Run :=
  exitnow 1 text (cleanup_res w true true true tr)

/-- The scanline loop `for (i=0; i<gif_filein->Image.Height; ++i)` of the image
case, with `n` turns left. `DGifGetLine` fills the `Width` entries of the buffer
`line`: an answer of another length is not one the decoder can give for this
call, and stands for `GIF_ERROR`. -/
def lineLoop (w : World) (marked_posidx : Int) (Width : Nat) :
    Nat → List (Option (List GifPixelType)) → List Event → Except Run (List Event)
  | 0, _, tr => .ok tr
  | _ + 1, [], tr => .error (fatal w "Error getting line from input image\n" tr)
  | _ + 1, none :: _, tr => .error (fatal w "Error getting line from input image\n" tr)
  | n + 1, some got :: rest, tr =>
    if got.length ≠ Width then
      .error (fatal w "Error getting line from input image\n" tr)
    else
      let line := translate marked_posidx Width got
      if w.GIF_ERROR tr (.EGifPutLine line) then
        .error (fatal w "Error putting line into output file\n" (tr ++ [.EGifPutLine line]))
      else lineLoop w marked_posidx Width n rest (tr ++ [.EGifPutLine line])

/-- The case `IMAGE_DESC_RECORD_TYPE` of the record loop. -/
def imageCase (w : World) (marked_posidx : Int) (desc : Option GifImageDesc)
    (lines : List (Option (List GifPixelType))) (tr : List Event) :
    Except Run (List Event) :=
  match desc with
  | none => .error (fatal w "Error getting image description\n" tr)
  | some Image =>
    let put := Event.EGifPutImageDesc Image.Left Image.Top Image.Width Image.Height
      Image.Interlace Image.ColorMap
    if w.GIF_ERROR tr put then
      .error (fatal w "Error putting image destination\n" (tr ++ [put]))
    else lineLoop w marked_posidx Image.Width Image.Height lines (tr ++ [put])

/-- The loop `while (extension != NULL)` of the extension case; the list holds
the answers of `DGifGetExtensionNext` that are left. -/
def extensionLoop (w : World) :
    List (Option ExtensionBlock) → List Event → Except Run (List Event)
  | [], tr => .ok tr
  | none :: _, tr => .error (fatal w "Error getting next extension\n" tr)
  | some extension :: rest, tr =>
    let put := Event.EGifPutExtensionBlock extension.count extension.bytes
    if w.GIF_ERROR tr put then
      .error (fatal w "Error putting extension block\n" (tr ++ [put]))
    else extensionLoop w rest (tr ++ [put])

/-- The case `EXTENSION_RECORD_TYPE` of the record loop. -/
def extensionCase (w : World) (extcode : Int) (chain : List (Option ExtensionBlock))
    (tr : List Event) : Except Run (List Event) :=
  match chain with
  | none :: _ => .error (fatal w "Error reading extension from input file\n" tr)
  | [] => .ok tr
  | some extension :: rest =>
    let leader := Event.EGifPutExtensionLeader extcode
    if w.GIF_ERROR tr leader then
      .error (fatal w "Error putting extension leader\n" (tr ++ [leader]))
    else
      let tr := tr ++ [leader]
      let put := Event.EGifPutExtensionBlock extension.count extension.bytes
      if w.GIF_ERROR tr put then
        .error (fatal w "Error putting extension block\n" (tr ++ [put]))
      else
        match extensionLoop w rest (tr ++ [put]) with
        | .error run => .error run
        | .ok tr =>
          if w.GIF_ERROR tr .EGifPutExtensionTrailer then
            .error (fatal w "Error putting extension block\n" (tr ++ [.EGifPutExtensionTrailer]))
          else .ok (tr ++ [.EGifPutExtensionTrailer])

/-- The `switch (record_type)` of the record loop on a record that is not the
terminate record: what is done for it. -/
def recordCase (w : World) (marked_posidx : Int) (record : Record) (tr : List Event) :
    Except Run (List Event) :=
  match record with
  | .image desc lines => imageCase w marked_posidx desc lines tr
  | .extension extcode chain => extensionCase w extcode chain tr
  | _ => .ok tr

/-- The record loop `do { ... } while (record_type != TERMINATE_RECORD_TYPE)` of
`main` with what follows it: `cleanup_res(...); return 0;`. -/
def recordLoop (w : World) (marked_posidx : Int) :
    List (Option Record) → List Event → Run
  | [], tr => fatal w "Error reading next record\n" tr
  | none :: _, tr => fatal w "Error reading next record\n" tr
  | some .terminate :: _, tr => ⟨cleanup_res w true true true tr, .exit 0⟩
  | some record :: rest, tr =>
    match recordCase w marked_posidx record tr with
    | .error run => run
    | .ok tr => recordLoop w marked_posidx rest tr

/-- The command line after `main` has read it: `argc`; whether `argv[1]` starts
with `--help`; the values `strtol` gives for `argv[1]`, `argv[2]`, `argv[3]`; and
`argv[4]`, `argv[5]`. -/
structure Argv where
  argc : Nat
  help : Bool
  red : Int
  green : Int
  blue : Int
  input_filename : String
  output_filename : String

/-- The target color `main` forms from the command line: each value is stored in
an `unsigned char` (`trans_red`, `trans_green`, `trans_blue`). -/
def target_trans_color (argv : Argv) : GifColorType :=
  ⟨(argv.red % 256).toNat, (argv.green % 256).toNat, (argv.blue % 256).toNat⟩

/-- The function `main` of `src/src/tcolorswap.c` (built with `NDEBUG`: the debug
prints are left out). -/
def main (argv : Argv) (w : World) : Run :=
  if argv.argc < 6 then
    if argv.argc ≥ 2 && argv.help then ⟨cli_print_usage [], .exit 1⟩
    else ⟨cli_print_usage [.stderr "Not enough parameters entered!\n\n"], .exit 1⟩
  else
    match w.DGifOpenFileName argv.input_filename with
    | none => exitnow 1 ("Error opening gif file " ++ argv.input_filename ++ "\n") []
    | some gif_filein =>
      -- `gif_filein->SColorMap->ColorCount` dereferences `SColorMap`
      match gif_filein.SColorMap with
      | none => ⟨[], .crash⟩
      | some SColorMap =>
        match GifMakeMapObject w SColorMap.ColorCount SColorMap.Colors with
        | none => exitnow 1 "Error creating colormap object\n" (cleanup_res w true false true [])
        | some colormap =>
          if gif_filein.SColorMap.isNone then
            exitnow 1 ("No colormap for " ++ argv.input_filename ++ "\n")
              (cleanup_res w true false true [])
          else if SColorMap.ColorCount ≤ 0 then
            exitnow 1 "Error number of colors in colormap is 0\n"
              (cleanup_res w true false true [])
          else
            match locator colormap.Colors (target_trans_color argv) with
            | .error .DuplicateColor =>
              exitnow 1 "There should not be duplicated transparent color in colormap. Quit now.\n"
                (cleanup_res w true false true [])
            | .error .ColorNotFound =>
              exitnow 1 "Not found target color to rearrange in colormap. Quit now.\n"
                (cleanup_res w true false true [])
            | .ok marked_posidx =>
              if marked_posidx < 0 then ⟨[], .crash⟩
              else
                match swapColors colormap.Colors marked_posidx.toNat with
                | none => ⟨[], .crash⟩
                | some filein_colors =>
                  let colormap : ColorMapObject := ⟨filein_colors⟩
                  let tr := [Event.EGifOpenFileName argv.output_filename]
                  match w.EGifOpenFileName argv.output_filename with
                  | some error_code =>
                    exitnow 1 ("Error opening output file " ++ argv.output_filename ++
                        " to write [error code: " ++ toString error_code ++ "]\n")
                      (cleanup_res w true false true tr)
                  | none =>
                    let tr := tr ++ [.EGifSetGifVersion true]
                    let put := Event.EGifPutScreenDesc gif_filein.SWidth gif_filein.SHeight
                      gif_filein.SColorResolution gif_filein.SBackGroundColor colormap
                    if w.GIF_ERROR tr put then
                      exitnow 1 ("Cannot put screen description to output file " ++
                          argv.output_filename ++ "\n")
                        (cleanup_res w true true true (tr ++ [put]))
                    else recordLoop w marked_posidx gif_filein.records (tr ++ [put])

end CLI

/-! ## The hardcoded-filename variant (`src/tcolorswap.c`)

In this variant `exitnow` prints the text and returns. The model keeps the three
pointers of `main` (`gif_filein`, `gif_fileout`, `colormap`), which `cleanup_res`
sets to `NULL`, and every statement that uses one of them checks it: the use of a
`NULL` pointer, or of the table of a color map object that has been released, is
undefined behaviour, and the run stops there. -/

namespace Hardcoded

/-- The macro `input_filename`: `#define input_filename "input.gif"`. -/
def input_filename : String := "input.gif"

/-- The macro `output_filename`: `#define output_filename "output.gif"`. -/
def output_filename : String := "output.gif"

/-- The variable `static unsigned char trans_red = 0;`. -/
def trans_red : GifByteType := 0

/-- The variable `static unsigned char trans_green = 253;`. -/
def trans_green : GifByteType := 253

/-- The variable `static unsigned char trans_blue = 255;`. -/
def trans_blue : GifByteType := 255

/-- The steps of `main`, to tell where a run stops. -/
inductive Step where
  | makeColormap
  | checkColormap
  | locator
  | swap
  | screenDesc
  | recordLoop
  | finalPrint
  deriving DecidableEq, Repr

/-- How a run of this variant stops: `return status` of `main` (there is no call
of `exit` in this file), or undefined behaviour in a statement of the given
step. -/
inductive Stop where
  | returned (status : Int)
  | undefinedAt (step : Step)
  deriving DecidableEq, Repr

/-- A finished run: the events in the order they happened, and how it stopped. -/
structure Run where
  trace : List Event
  stop : Stop
  deriving DecidableEq, Repr

/-- Undefined behaviour: the events before it and the step of the statement. -/
structure Fault where
  trace : List Event
  step : Step
  deriving DecidableEq, Repr

/-- The output file behind `gif_fileout`; `EGifPutScreenDesc` stores a copy of
the color map it is given in `SColorMap`. -/
structure OutFile where
  SColorMap : Option ColorMapObject
  deriving DecidableEq, Repr

/-- The pointers of `main` (`none` for `NULL`) and the events so far. -/
structure Vars where
  gif_filein : Option GifFileType
  gif_fileout : Option OutFile
  colormap : Option ColorMapObject
  tr : List Event

/-- The same pointers after some more events. -/
def Vars.log (v : Vars) (events : List Event) : Vars :=
  ⟨v.gif_filein, v.gif_fileout, v.colormap, v.tr ++ events⟩

/-- The use of a pointer in a statement of the step `step`: its target, or
undefined behaviour when it is `NULL`. -/
def deref {α : Type} (p : Option α) (step : Step) (tr : List Event) : Except Fault α :=
  match p with
  | some a => .ok a
  | none => .error ⟨tr, step⟩

/-- `exitnow(status, err_str_format, ...)` of `src/tcolorswap.c`: prints the text
to standard error and returns. `text` is the formatted text. -/
def exitnow (_status : Int) (text : String) (v : Vars) : Vars :=
  v.log [.stderr text]

/-- `cleanup_res(filein, fileout, filein_mapobject)`: each argument tells whether
the pointer passed is not `NULL`; what is cleaned up is set to `NULL`. -/
def cleanup_res (w : World) (filein fileout filein_mapobject : Bool) (v : Vars) : Vars :=
  ⟨if filein then none else v.gif_filein,
    if fileout then none else v.gif_fileout,
    if filein_mapobject then none else v.colormap,
    TColorSwap.cleanup_res w filein fileout filein_mapobject v.tr⟩

/-- The fatal error path of the record loop:
`cleanup_res(&gif_filein, &gif_fileout, &colormap); exitnow(1, text);`. -/
def fatal (w : World) (text : String) (v : Vars) : Vars :=
  exitnow 1 text (cleanup_res w true true true v)

/-- A call `e` on the output file in the record loop, with its fatal error path
when it returns `GIF_ERROR`; the call uses `gif_fileout`. -/
def put (w : World) (e : Event) (text : String) (v : Vars) : Except Fault Vars := do
  let _ ← deref v.gif_fileout .recordLoop v.tr
  if w.GIF_ERROR v.tr e then pure (fatal w text (v.log [e])) else pure (v.log [e])

/-- The locator loop `for (int i=0; i<num_color_colormap; ++i)`, run on the
entries that are left. After the fatal error path of a second match the loop goes
on; `filein_colors[i]` reads the table of the color map object, which has then
been released. The result is `marked_posidx` after the loop. -/
def locatorLoop (w : World) (target_trans_color : GifColorType) :
    List GifColorType → Nat → Bool → Int → Vars → Except Fault (Int × Vars)
  | [], _, _, marked_posidx, v => .ok (marked_posidx, v)
  | c :: rest, i, found, marked_posidx, v => do
    let _ ← deref v.colormap .locator v.tr
    if colorMatches c target_trans_color then
      if found then
        locatorLoop w target_trans_color rest (i + 1) found marked_posidx
          (exitnow 1 "There should not be duplicated transparent color in colormap. Quit now."
            (cleanup_res w true false true v))
      else locatorLoop w target_trans_color rest (i + 1) true (i : Int) v
    else locatorLoop w target_trans_color rest (i + 1) found marked_posidx v

/-- The scanline loop `for (i=0; i<gif_filein->Image.Height; ++i)` of the image
case, with `n` turns left; `Image` is `gif_filein->Image`. The buffer `line` has
`Image.Width` entries and the translation loop runs
`for (cp = line; cp < line + gif_filein->Image.Height; ++cp)`: with a height
above the width it goes past the end of the buffer. As in the other variant an
answer of `DGifGetLine` of another length than the width stands for `GIF_ERROR`. -/
def lineLoop (w : World) (marked_posidx : Int) (Image : GifImageDesc) :
    Nat → List (Option (List GifPixelType)) → Vars → Except Fault Vars
  | 0, _, v => do
    -- the test `i<gif_filein->Image.Height` that ends the loop
    let _ ← deref v.gif_filein .recordLoop v.tr
    pure v
  | n + 1, lines, v => do
    -- the test `i<gif_filein->Image.Height`, then `DGifGetLine(gif_filein, ...)`
    let _ ← deref v.gif_filein .recordLoop v.tr
    match lines with
    | some got :: rest =>
      if got.length ≠ Image.Width then
        let v := fatal w "Error getting line from input image" v
        -- the test `cp < line + gif_filein->Image.Height`
        let _ ← deref v.gif_filein .recordLoop v.tr
        pure v
      else if Image.Width < Image.Height then
        -- `*cp` at `line + Image.Width` is outside of the buffer
        .error ⟨v.tr, .recordLoop⟩
      else
        let line := translate marked_posidx Image.Height got
        let v ← put w (.EGifPutLine line) "Error putting line into output file" v
        lineLoop w marked_posidx Image n rest v
    | _ =>
      let v := fatal w "Error getting line from input image" v
      -- the test `cp < line + gif_filein->Image.Height`
      let _ ← deref v.gif_filein .recordLoop v.tr
      pure v

/-- The case `IMAGE_DESC_RECORD_TYPE` of the record loop; the color map passed to
`EGifPutImageDesc` is `colormap`. -/
def imageCase (w : World) (marked_posidx : Int) (desc : Option GifImageDesc)
    (lines : List (Option (List GifPixelType))) (v : Vars) : Except Fault Vars := do
  -- `DGifGetImageDesc(gif_filein)`
  let _ ← deref v.gif_filein .recordLoop v.tr
  match desc with
  | none =>
    let v := fatal w "Error getting image description" v
    -- `gif_filein->Image.Left`, argument of `EGifPutImageDesc`
    let _ ← deref v.gif_filein .recordLoop v.tr
    pure v
  | some Image =>
    let v ← put w (.EGifPutImageDesc Image.Left Image.Top Image.Width Image.Height
      Image.Interlace v.colormap) "Error putting image destination" v
    lineLoop w marked_posidx Image Image.Height lines v

/-- The loop `while (extension != NULL)` of the extension case; the list holds
the answers of `DGifGetExtensionNext(gif_filein, &extension)` that are left. -/
def extensionLoop (w : World) :
    List (Option ExtensionBlock) → Vars → Except Fault Vars
  | [], v => do
    let _ ← deref v.gif_filein .recordLoop v.tr
    pure v
  | none :: _, v => do
    let _ ← deref v.gif_filein .recordLoop v.tr
    let v := fatal w "Error getting next extension" v
    -- the statement reached next passes `gif_fileout` to the encoder
    let _ ← deref v.gif_fileout .recordLoop v.tr
    pure v
  | some extension :: rest, v => do
    let _ ← deref v.gif_filein .recordLoop v.tr
    let v ← put w (.EGifPutExtensionBlock extension.count extension.bytes)
      "Error putting extension block" v
    extensionLoop w rest v

/-- The case `EXTENSION_RECORD_TYPE` of the record loop. -/
def extensionCase (w : World) (extcode : Int) (chain : List (Option ExtensionBlock))
    (v : Vars) : Except Fault Vars := do
  -- `DGifGetExtension(gif_filein, &extcode, &extension)`
  let _ ← deref v.gif_filein .recordLoop v.tr
  match chain with
  | none :: _ =>
    let v := fatal w "Error reading extension from input file" v
    -- whichever way `extension == NULL` goes, the statement reached next passes
    -- `gif_fileout` or `gif_filein` to the library
    let _ ← deref v.gif_filein .recordLoop v.tr
    pure v
  | [] => pure v
  | some extension :: rest =>
    let v ← put w (.EGifPutExtensionLeader extcode) "Error putting extension leader" v
    let v ← put w (.EGifPutExtensionBlock extension.count extension.bytes)
      "Error putting extension block" v
    let v ← extensionLoop w rest v
    put w .EGifPutExtensionTrailer "Error putting extension block" v

/-- The `switch (record_type)` of the record loop on a record that is not the
terminate record. -/
def recordCase (w : World) (marked_posidx : Int) (record : Record) (v : Vars) :
    Except Fault Vars :=
  match record with
  | .image desc lines => imageCase w marked_posidx desc lines v
  | .extension extcode chain => extensionCase w extcode chain v
  | _ => .ok v

/-- The record loop `do { ... } while (record_type != TERMINATE_RECORD_TYPE)`;
each turn starts with `DGifGetRecordType(gif_filein, &record_type)`. -/
def recordLoop (w : World) (marked_posidx : Int) :
    List (Option Record) → Vars → Except Fault Vars
  | [], v => do
    let _ ← deref v.gif_filein .recordLoop v.tr
    let v := fatal w "Error reading next record" v
    -- the `switch` leads to a call of the decoder on `gif_filein`
    let _ ← deref v.gif_filein .recordLoop v.tr
    pure v
  | none :: _, v => do
    let _ ← deref v.gif_filein .recordLoop v.tr
    let v := fatal w "Error reading next record" v
    let _ ← deref v.gif_filein .recordLoop v.tr
    pure v
  | some .terminate :: _, v => do
    let _ ← deref v.gif_filein .recordLoop v.tr
    pure v
  | some record :: rest, v => do
    let _ ← deref v.gif_filein .recordLoop v.tr
    let v ← recordCase w marked_posidx record v
    recordLoop w marked_posidx rest v

/-- The conversion `%3d` of `printf` for a byte. -/
def pad3 (n : Nat) : String :=
  String.mk (List.replicate (3 - (toString n).length) ' ') ++ toString n

/-- The final print `printf("colors[%d] = %3d %3d %3d\n", ...)` for the entries
that are left, `i` being the index of the first of them. -/
def printColors : List GifColorType → Nat → List Event
  | [], _ => []
  | c :: rest, i =>
    .stdout ("colors[" ++ toString i ++ "] = " ++ pad3 c.Red ++ " " ++ pad3 c.Green ++ " " ++
      pad3 c.Blue ++ "\n") :: printColors rest (i + 1)

/-- The body of `main` of `src/tcolorswap.c`, statement by statement, up to
`return 0`: the events of the run, or the undefined behaviour that stops it. -/
def body (w : World) : Except Fault (List Event) := do
  let v : Vars := ⟨w.DGifOpenFileName input_filename, none, none, []⟩
  let v := if v.gif_filein.isNone then
      exitnow 1 ("Error opening gif file " ++ input_filename) v
    else v
  -- `GifMakeMapObject(gif_filein->SColorMap->ColorCount, gif_filein->SColorMap->Colors)`
  let gif_filein ← deref v.gif_filein .makeColormap v.tr
  let SColorMap ← deref gif_filein.SColorMap .makeColormap v.tr
  let v : Vars := ⟨v.gif_filein, v.gif_fileout,
    GifMakeMapObject w SColorMap.ColorCount SColorMap.Colors, v.tr⟩
  let v := if v.colormap.isNone then
      exitnow 1 "Error creating colormap object" (cleanup_res w true false true v)
    else v
  -- `if (gif_filein->SColorMap == NULL)`
  let gif_filein ← deref v.gif_filein .checkColormap v.tr
  let v := if gif_filein.SColorMap.isNone then
      exitnow 1 ("No colormap for " ++ input_filename) (cleanup_res w true false true v)
    else v
  -- `if (gif_filein->SColorMap->ColorCount <= 0)`
  let gif_filein ← deref v.gif_filein .checkColormap v.tr
  let SColorMap ← deref gif_filein.SColorMap .checkColormap v.tr
  let v := if SColorMap.ColorCount ≤ 0 then
      exitnow 1 "Error number of colors in colormap is 0" (cleanup_res w true false true v)
    else v
  -- `int num_color_colormap = colormap->ColorCount;` and the print of it
  let colormap ← deref v.colormap .locator v.tr
  let v := v.log [.stdout ("Colors: " ++ toString colormap.ColorCount ++ "\n")]
  -- `filein_colors = colormap->Colors`, then the locator loop
  let (marked_posidx, v) ←
    locatorLoop w ⟨trans_red, trans_green, trans_blue⟩ colormap.Colors 0 false (-1) v
  -- the swap; there is no test of `found`
  let colormap ← deref v.colormap .swap v.tr
  let filein_colors ← deref
    (if marked_posidx < 0 then none else swapColors colormap.Colors marked_posidx.toNat)
    .swap v.tr
  let v : Vars := ⟨v.gif_filein, v.gif_fileout, some ⟨filein_colors⟩, v.tr⟩
  -- `EGifOpenFileName(output_filename, false, &error_code)`
  let v := v.log [.EGifOpenFileName output_filename]
  let v : Vars := match w.EGifOpenFileName output_filename with
    | some error_code =>
      exitnow 1 ("Error opening output file " ++ output_filename ++
          " to write [error code: " ++ toString error_code ++ "]")
        (cleanup_res w true false true v)
    | none => ⟨v.gif_filein, some ⟨none⟩, v.colormap, v.tr⟩
  -- `EGifPutScreenDesc(gif_fileout, gif_filein->SWidth, ..., gif_filein->SColorMap)`
  let gif_filein ← deref v.gif_filein .screenDesc v.tr
  let _ ← deref v.gif_fileout .screenDesc v.tr
  let SColorMap ← deref gif_filein.SColorMap .screenDesc v.tr
  let screen := Event.EGifPutScreenDesc gif_filein.SWidth gif_filein.SHeight
    gif_filein.SColorResolution gif_filein.SBackGroundColor SColorMap
  let v : Vars :=
    if w.GIF_ERROR v.tr screen then
      exitnow 1 ("Cannot put screen description to output file " ++ output_filename)
        (cleanup_res w true true true (v.log [screen]))
    else ⟨v.gif_filein, some ⟨some SColorMap⟩, v.colormap, v.tr ++ [screen]⟩
  let v ← recordLoop w marked_posidx gif_filein.records v
  -- the final print, from `gif_fileout->SColorMap`
  let gif_fileout ← deref v.gif_fileout .finalPrint v.tr
  let outMap ← deref gif_fileout.SColorMap .finalPrint v.tr
  let chk_colormap ← deref (GifMakeMapObject w outMap.ColorCount outMap.Colors)
    .finalPrint v.tr
  let v := v.log (printColors chk_colormap.Colors 0)
  let v := cleanup_res w true true true v
  pure v.tr

/-- The function `main` of `src/tcolorswap.c`: its only way out is `return 0`. -/
def main (w : World) : Run :=
  match body w with
  | .ok tr => ⟨tr, .returned 0⟩
  | .error fault => ⟨fault.trace, .undefinedAt fault.step⟩

end Hardcoded

/-! ## Record types of the input and of the output -/

/-- The record that a call on the output file starts in the output stream: an
image record for `EGifPutImageDesc`, an extension record for
`EGifPutExtensionLeader`, and the terminate record for `EGifCloseFile`, which
writes the trailer of the stream before it closes the file. -/
def Event.recordType : Event → Option GifRecordType
  | .EGifPutImageDesc _ _ _ _ _ _ => some .IMAGE_DESC_RECORD_TYPE
  | .EGifPutExtensionLeader _ => some .EXTENSION_RECORD_TYPE
  | .EGifCloseFile => some .TERMINATE_RECORD_TYPE
  | _ => none

/-- The sequence of record types written to the output by a run. -/
def outputRecordTypes (tr : List Event) : List GifRecordType :=
  tr.filterMap Event.recordType

/-- The records the loop reads from the input up to the terminate record (or up
to the first `GIF_ERROR` of `DGifGetRecordType`). -/
def recordsRead : List (Option Record) → List Record
  | [] => []
  | none :: _ => []
  | some .terminate :: _ => [.terminate]
  | some record :: rest => record :: recordsRead rest

/-- Whether a record is of one of the three types of a GIF stream: image,
extension, terminate. -/
def Record.isStreamRecord : Record → Bool
  | .image _ _ => true
  | .extension _ _ => true
  | .terminate => true
  | _ => false

/-- The sequence of record types (image, extension, terminate) read from the
input by the loop. -/
def inputRecordTypes (records : List (Option Record)) : List GifRecordType :=
  ((recordsRead records).filter Record.isStreamRecord).map Record.type

/-- Whether the loop writes a record for a record it reads: an extension whose
first answer is `NULL` (an empty chain) is left out, like the record types that
are not of the stream. -/
def Record.isWritten : Record → Bool
  | .image _ _ => true
  | .extension _ chain => !chain.isEmpty
  | .terminate => true
  | _ => false

/-- Whether a record, when it is an extension record, has at least one sub-block
(the first answer of the decoder for it is not `NULL`). -/
def Record.hasSubBlock : Record → Bool
  | .extension _ chain => !chain.isEmpty
  | _ => true

/-- The events of one extension record in the output: the leader, a block for
each sub-block, the trailer. -/
def extensionEvents (extcode : Int) (blocks : List ExtensionBlock) : List Event :=
  [.EGifPutExtensionLeader extcode] ++
    blocks.map (fun b => Event.EGifPutExtensionBlock b.count b.bytes) ++
    [.EGifPutExtensionTrailer]

/-- Whether an event is one the record loop and the cleanup can make: every
event but the three calls that `main` makes on the output file before the loop. -/
def Event.afterScreenDesc : Event → Bool
  | .EGifOpenFileName _ => false
  | .EGifSetGifVersion _ => false
  | .EGifPutScreenDesc _ _ _ _ _ => false
  | _ => true

/-- The trace `tr'` is `tr` followed by events of the record loop or the cleanup. -/
def Extends (tr tr' : List Event) : Prop :=
  ∃ ext : List Event, tr' = tr ++ ext ∧ ∀ e ∈ ext, e.afterScreenDesc = true

/-- The run ended through the fatal error path after the trace `tr`. -/
def Failed (tr : List Event) (run : Run) : Prop :=
  run.outcome = .exit 1 ∧ Extends tr run.trace

/-! ## Image records -/

/-- The pixel remapper as the specification words it (section 4.3), for a pixel
value `v` and a swap index `s`: `0` if `v == s`; `s` if `v == 0`; `v` otherwise. -/
def specRemap (s : Nat) (v : GifPixelType) : GifPixelType :=
  if v = s then 0 else if v = 0 then s else v

/-- The events of one image record in the output, for the swap index `s`: the
image descriptor with the geometry, the interlace flag and the color map of the
input descriptor, then a line for each input line, each entry remapped. -/
def imageEvents (s : Nat) (Image : GifImageDesc) (lines : List (List GifPixelType)) :
    List Event :=
  [.EGifPutImageDesc Image.Left Image.Top Image.Width Image.Height Image.Interlace
      Image.ColorMap] ++
    lines.map (fun line => Event.EGifPutLine (line.map (specRemap s)))

/-- The color table in effect for an image: its local color map when it has one,
the global color table otherwise. -/
def tableInEffect (globalTable : List GifColorType) (localMap : Option ColorMapObject) :
    List GifColorType :=
  match localMap with
  | some m => m.Colors
  | none => globalTable

/-! ## Concrete inputs -/

/-- The color table of scenario A. -/
def scenarioTable : List GifColorType :=
  [⟨0, 253, 255⟩, ⟨10, 10, 10⟩, ⟨1, 2, 3⟩, ⟨4, 5, 6⟩]

/-- A color table of eight entries that holds `(1,2,3)` at the indices 2 and 5. -/
def duplicateTable : List GifColorType :=
  [⟨0, 253, 255⟩, ⟨10, 10, 10⟩, ⟨1, 2, 3⟩, ⟨4, 5, 6⟩,
    ⟨7, 8, 9⟩, ⟨1, 2, 3⟩, ⟨11, 12, 13⟩, ⟨14, 15, 16⟩]

/-- An input file of 2 by 2 pixels with the given global color table and records. -/
def inputFile (table : List GifColorType) (records : List (Option Record)) : GifFileType :=
  GifFileType.mk 2 2 2 0 (some ⟨table⟩) records

/-- A record stream: a graphic control extension of one sub-block, an image of
two lines, the terminate record. -/
def scenarioRecords : List (Option Record) :=
  [some (.extension 249 [some ⟨4, [1, 0, 0, 2]⟩]),
    some (.image (some ⟨0, 0, 2, 2, false, none⟩) [some [2, 0], some [1, 3]]),
    some .terminate]

/-- A record stream whose only extension record (a comment extension) has an
empty chain of sub-blocks. -/
def emptyChainRecords : List (Option Record) :=
  [some (.extension 254 []), some .terminate]

/-- A world in which the input file is `f` and no call of the library fails. -/
def quietWorld (f : GifFileType) : World :=
  World.mk (fun _ => some f) true (fun _ => none) (fun _ _ => false) none none

/-- The command line `tcolorswap 1 2 3 input.gif output.gif`. -/
def scenarioArgv : CLI.Argv :=
  CLI.Argv.mk 6 false 1 2 3 "input.gif" "output.gif"

/-- A color table of four entries used as a local color map. -/
def localTable : List GifColorType :=
  [⟨9, 9, 9⟩, ⟨8, 8, 8⟩, ⟨7, 7, 7⟩, ⟨6, 6, 6⟩]

/-- A record stream: an image of one line of two pixels that has the local color
map `localTable`, then the terminate record. -/
def localMapRecords : List (Option Record) :=
  [some (.image (some ⟨0, 0, 2, 1, false, some ⟨localTable⟩⟩) [some [0, 1]]),
    some .terminate]

/-- An input file of 2 by 2 pixels that has no global color table. -/
def noTableFile : GifFileType :=
  GifFileType.mk 2 2 2 0 none scenarioRecords

/-- A color table that holds the target of the hardcoded variant, `(0,253,255)`,
once, at index 2. -/
def hardcodedTable : List GifColorType :=
  [⟨1, 1, 1⟩, ⟨10, 10, 10⟩, ⟨0, 253, 255⟩, ⟨4, 5, 6⟩]

/-- A color table that holds the target of the hardcoded variant, `(0,253,255)`,
at the indices 0 and 2. -/
def duplicateTargetTable : List GifColorType :=
  [⟨0, 253, 255⟩, ⟨10, 10, 10⟩, ⟨0, 253, 255⟩, ⟨4, 5, 6⟩]

/-- A record stream: an image of width 4 and height 2 with its two lines, then
the terminate record. -/
def wideImageRecords : List (Option Record) :=
  [some (.image (some ⟨0, 0, 4, 2, false, none⟩) [some [0, 1, 2, 0], some [2, 2, 0, 0]]),
    some .terminate]

/-- A record stream: an image of width 2 and height 4 with its four lines, then
the terminate record. -/
def tallImageRecords : List (Option Record) :=
  [some (.image (some ⟨0, 0, 2, 4, false, none⟩)
      [some [0, 1], some [2, 2], some [1, 0], some [0, 0]]),
    some .terminate]

/-- A world in which the input file cannot be opened. -/
def inputOpenFails : World :=
  World.mk (fun _ => none) true (fun _ => none) (fun _ _ => false) none none

/-- A world in which the input file is `f` and the output file cannot be opened
(error code 2). -/
def outputOpenFails (f : GifFileType) : World :=
  World.mk (fun _ => some f) true (fun _ => some 2) (fun _ _ => false) none none

/-- A world in which the input file is `f` and `EGifPutScreenDesc` fails. -/
def screenDescFails (f : GifFileType) : World :=
  World.mk (fun _ => some f) true (fun _ => none)
    (fun _ e => match e with
      | .EGifPutScreenDesc _ _ _ _ _ => true
      | _ => false) none none

/-- The command line `tcolorswap 0 253 255 input.gif output.gif`: the target and
the file names of the hardcoded variant. -/
def hardcodedArgv : CLI.Argv :=
  CLI.Argv.mk 6 false 0 253 255 "input.gif" "output.gif"

/-! ## Properties of the palette locator -/

theorem colorMatches_iff (c t : GifColorType) : colorMatches c t = true ↔ c = t := by
  cases c; cases t
  simp [colorMatches, and_assoc]

/-- The locator loop once a match has been met: a further match ends the run. -/
theorem locatorLoop_found (t : GifColorType) :
    ∀ (rest : List GifColorType) (i : Nat) (m : Int),
      locatorLoop t rest i true m = if rest.count t = 0 then some (true, m) else none := by
  intro rest
  induction rest with
  | nil => intro i m; simp [locatorLoop]
  | cons c rest ih =>
    intro i m
    by_cases h : c = t
    · subst h
      simp [locatorLoop, (colorMatches_iff c c).2 rfl]
    · have hm : colorMatches c t = false := by
        cases hc : colorMatches c t
        · rfl
        · exact absurd ((colorMatches_iff c t).1 hc) h
      have hne : t ≠ c := fun e => h e.symm
      simp [locatorLoop, hm, ih, List.count_cons_of_ne hne]

/-- The locator loop before any match has been met. -/
theorem locatorLoop_not_found (t : GifColorType) :
    ∀ (rest : List GifColorType) (i : Nat) (m : Int),
      (rest.count t = 0 → locatorLoop t rest i false m = some (false, m)) ∧
      (rest.count t = 1 → ∃ k : Nat, k < rest.length ∧ rest[k]? = some t ∧
          (∀ j : Nat, rest[j]? = some t → j = k) ∧
          locatorLoop t rest i false m = some (true, ((i + k : Nat) : Int))) ∧
      (2 ≤ rest.count t → locatorLoop t rest i false m = none) := by
  intro rest
  induction rest with
  | nil => intro i m; simp [locatorLoop]
  | cons c rest ih =>
    intro i m
    by_cases h : c = t
    · subst h
      have hm : colorMatches c c = true := (colorMatches_iff c c).2 rfl
      refine ⟨?_, ?_, ?_⟩
      · intro h0; simp at h0
      · intro h1
        have h0 : rest.count c = 0 := by simpa using h1
        refine ⟨0, by simp, by simp, ?_, ?_⟩
        · intro j hj
          cases j with
          | zero => rfl
          | succ j =>
            rw [List.getElem?_cons_succ] at hj
            have hmem : c ∈ rest := List.getElem?_mem hj
            exact absurd hmem (List.count_eq_zero.1 h0)
        · simp [locatorLoop, hm, locatorLoop_found, h0]
      · intro h2
        have h0 : rest.count c ≠ 0 := by
          rw [List.count_cons_self] at h2; omega
        simp [locatorLoop, hm, locatorLoop_found, h0]
    · have hm : colorMatches c t = false := by
        cases hc : colorMatches c t
        · rfl
        · exact absurd ((colorMatches_iff c t).1 hc) h
      have hne : t ≠ c := fun e => h e.symm
      obtain ⟨ih0, ih1, ih2⟩ := ih (i + 1) m
      rw [List.count_cons_of_ne hne]
      refine ⟨?_, ?_, ?_⟩
      · intro h0; simp [locatorLoop, hm, ih0 h0]
      · intro h1
        obtain ⟨k, hk, hget, huniq, hloop⟩ := ih1 h1
        refine ⟨k + 1, by simp [hk], by simp [hget], ?_, ?_⟩
        · intro j hj
          cases j with
          | zero =>
            simp at hj
            exact absurd hj h
          | succ j =>
            rw [List.getElem?_cons_succ] at hj
            rw [huniq j hj]
        · simp [locatorLoop, hm, hloop]
          omega
      · intro h2; simp [locatorLoop, hm, ih2 h2]

/-- The result of the locator by the number of occurrences of the target. -/
theorem locator_by_count (table : List GifColorType) (target : GifColorType) :
    (table.count target = 0 → locator table target = .error .ColorNotFound) ∧
    (table.count target = 1 → ∃ i : Nat, i < table.length ∧ table[i]? = some target ∧
        (∀ j : Nat, table[j]? = some target → j = i) ∧
        locator table target = .ok (i : Int)) ∧
    (2 ≤ table.count target → locator table target = .error .DuplicateColor) := by
  obtain ⟨h0, h1, h2⟩ := locatorLoop_not_found target table 0 (-1)
  refine ⟨?_, ?_, ?_⟩
  · intro h; simp [locator, h0 h]
  · intro h
    obtain ⟨k, hk, hget, huniq, hloop⟩ := h1 h
    exact ⟨k, hk, hget, huniq, by simp [locator, hloop]⟩
  · intro h; simp [locator, h2 h]

/-- C1. Palette locator of the command line variant: the scan of the color table
in index order, with equality on the three channels, fails with `ColorNotFound`
when the target occurs in no entry, gives the index of the only entry that holds
the target (an index of the table, 0 allowed) when it occurs once, and fails with
`DuplicateColor` when it occurs in two entries or more. -/
theorem locator_uniqueness (table : List GifColorType) (target : GifColorType) :
    (table.count target = 0 → locator table target = .error .ColorNotFound) ∧
    (table.count target = 1 → ∃ i : Nat, i < table.length ∧ table[i]? = some target ∧
        (∀ j : Nat, table[j]? = some target → j = i) ∧
        locator table target = .ok (i : Int)) ∧
    (2 ≤ table.count target → locator table target = .error .DuplicateColor) := by
  obtain ⟨h0, h1, h2⟩ := locatorLoop_not_found target table 0 (-1)
  refine ⟨?_, ?_, ?_⟩
  · intro h
    unfold locator
    rw [h0 h]
    rfl
  · intro h
    obtain ⟨k, hk, hget, huniq, hloop⟩ := h1 h
    refine ⟨k, hk, hget, huniq, ?_⟩
    unfold locator
    rw [hloop]
    simp
  · intro h
    unfold locator
    rw [h2 h]

/-- Witness of C1 on tables of four entries: no occurrence, one occurrence at
index 2, one occurrence at index 0, two occurrences. -/
theorem locator_uniqueness_witness :
    locator [⟨0, 253, 255⟩, ⟨10, 10, 10⟩, ⟨1, 2, 3⟩, ⟨4, 5, 6⟩] ⟨7, 7, 7⟩
      = .error .ColorNotFound ∧
    (∃ i : Nat, i < 4 ∧
      ([⟨0, 253, 255⟩, ⟨10, 10, 10⟩, ⟨1, 2, 3⟩, ⟨4, 5, 6⟩] : List GifColorType)[i]?
        = some ⟨1, 2, 3⟩ ∧
      (∀ j : Nat,
        ([⟨0, 253, 255⟩, ⟨10, 10, 10⟩, ⟨1, 2, 3⟩, ⟨4, 5, 6⟩] : List GifColorType)[j]?
          = some ⟨1, 2, 3⟩ → j = i) ∧
      locator [⟨0, 253, 255⟩, ⟨10, 10, 10⟩, ⟨1, 2, 3⟩, ⟨4, 5, 6⟩] ⟨1, 2, 3⟩
        = .ok (i : Int)) ∧
    locator [⟨0, 253, 255⟩, ⟨10, 10, 10⟩, ⟨1, 2, 3⟩, ⟨4, 5, 6⟩] ⟨1, 2, 3⟩ = .ok 2 ∧
    locator [⟨0, 253, 255⟩, ⟨10, 10, 10⟩, ⟨1, 2, 3⟩, ⟨4, 5, 6⟩] ⟨0, 253, 255⟩ = .ok 0 ∧
    locator [⟨1, 2, 3⟩, ⟨10, 10, 10⟩, ⟨1, 2, 3⟩, ⟨4, 5, 6⟩] ⟨1, 2, 3⟩
      = .error .DuplicateColor :=
  ⟨(locator_uniqueness [⟨0, 253, 255⟩, ⟨10, 10, 10⟩, ⟨1, 2, 3⟩, ⟨4, 5, 6⟩] ⟨7, 7, 7⟩).1
      (by decide),
    (locator_uniqueness [⟨0, 253, 255⟩, ⟨10, 10, 10⟩, ⟨1, 2, 3⟩, ⟨4, 5, 6⟩] ⟨1, 2, 3⟩).2.1
      (by decide),
    rfl, rfl,
    (locator_uniqueness [⟨1, 2, 3⟩, ⟨10, 10, 10⟩, ⟨1, 2, 3⟩, ⟨4, 5, 6⟩] ⟨1, 2, 3⟩).2.2
      (by decide)⟩

/-! ## Properties of the palette swap and of the pixel translation -/

/-- The swapped table, entry by entry. -/
theorem swapColors_getElem? (t : List GifColorType) (s : Nat) (hs : s < t.length) :
    ∃ t' : List GifColorType, swapColors t s = some t' ∧ t'.length = t.length ∧
      ∀ j : Nat, t'[j]? = if j = 0 then t[s]? else if j = s then t[0]? else t[j]? := by
  have h0 : 0 < t.length := by omega
  refine ⟨(t.set s t[0]).set 0 t[s], ?_, by simp, ?_⟩
  · simp [swapColors, List.getElem?_eq_getElem hs, List.getElem?_eq_getElem h0]
  · intro j
    by_cases hj0 : j = 0
    · subst hj0
      simp [List.getElem?_eq_getElem hs, h0]
    · by_cases hjs : j = s
      · subst hjs
        rw [List.getElem?_set_ne (Ne.symm hj0), List.getElem?_set_self hs]
        simp [hj0, List.getElem?_eq_getElem h0]
      · rw [List.getElem?_set_ne (Ne.symm hj0), List.getElem?_set_ne (Ne.symm hjs)]
        simp [hj0, hjs]

/-- The translation of one pixel for a swap index that fits in a byte. -/
theorem remap_eq (s : Nat) (hs : s < 256) (v : GifPixelType) :
    remap (s : Int) v = if v = s then 0 else if v = 0 then s else v := by
  unfold remap
  by_cases h1 : v = s
  · simp [h1]
  · have h1' : ¬ ((v : Int) = (s : Int)) := fun e => h1 (Int.ofNat_inj.1 e)
    by_cases h2 : v = 0
    · have hmod : (s : Int) % 256 = (s : Int) := Int.emod_eq_of_lt (by omega) (by omega)
      rw [if_neg h1', if_pos h2, if_neg h1, if_pos h2, hmod]
      exact Int.toNat_ofNat s
    · simp [h1, h1', h2]

/-- Translating a pixel twice with the same swap index gives the pixel back. -/
theorem remap_remap (s : Nat) (hs : s < 256) (v : GifPixelType) :
    remap (s : Int) (remap (s : Int) v) = v := by
  rw [remap_eq s hs, remap_eq s hs]
  by_cases h1 : v = s
  · by_cases h3 : s = 0
    · simp [h1, h3]
    · have h3' : ¬ (0 = s) := fun e => h3 e.symm
      simp [h1, h3']
  · by_cases h2 : v = 0
    · simp [h1, h2]
    · simp [h1, h2]

/-- C2. Palette swap: for a swap index `s` inside the table `t`, the three
assignments give a table of the same length whose entry 0 is `t[s]`, whose entry
`s` is `t[0]`, and whose other entries are those of `t` at the same index. -/
theorem swapColors_spec (t : List GifColorType) (s : Nat) (hs : s < t.length) :
    ∃ t' : List GifColorType, swapColors t s = some t' ∧ t'.length = t.length ∧
      t'[0]? = t[s]? ∧ t'[s]? = t[0]? ∧
      ∀ j : Nat, j ≠ 0 → j ≠ s → t'[j]? = t[j]? := by
  obtain ⟨t', hsw, hlen, hget⟩ := swapColors_getElem? t s hs
  refine ⟨t', hsw, hlen, ?_, ?_, ?_⟩
  · simp [hget]
  · rw [hget]
    by_cases h : s = 0
    · simp [h]
    · simp [h]
  · intro j hj0 hjs
    simp [hget, hj0, hjs]

/-- Witness of C2: the table of scenario A with swap index 2. -/
theorem swapColors_spec_witness :
    swapColors [⟨0, 253, 255⟩, ⟨10, 10, 10⟩, ⟨1, 2, 3⟩, ⟨4, 5, 6⟩] 2
        = some [⟨1, 2, 3⟩, ⟨10, 10, 10⟩, ⟨0, 253, 255⟩, ⟨4, 5, 6⟩] ∧
      ∃ t' : List GifColorType,
        swapColors [⟨0, 253, 255⟩, ⟨10, 10, 10⟩, ⟨1, 2, 3⟩, ⟨4, 5, 6⟩] 2 = some t' ∧
        t'.length = 4 ∧ t'[0]? = some ⟨1, 2, 3⟩ ∧ t'[2]? = some ⟨0, 253, 255⟩ ∧
        ∀ j : Nat, j ≠ 0 → j ≠ 2 →
          t'[j]? = ([⟨0, 253, 255⟩, ⟨10, 10, 10⟩, ⟨1, 2, 3⟩, ⟨4, 5, 6⟩] :
            List GifColorType)[j]? :=
  ⟨by decide,
    swapColors_spec [⟨0, 253, 255⟩, ⟨10, 10, 10⟩, ⟨1, 2, 3⟩, ⟨4, 5, 6⟩] 2 (by decide)⟩

/-- C3. Pixel translation: for a pixel value `v` and a swap index `s` (an index of
a color table, so below 256), the translated value is 0 when `v = s`, `s` when
`v = 0` and `v ≠ s`, and `v` otherwise; with `s = 0` every value is left as it is. -/
theorem remap_spec (v : GifPixelType) (s : Nat) (hs : s < 256) :
    (v = s → remap (s : Int) v = 0) ∧
    (v = 0 → v ≠ s → remap (s : Int) v = s) ∧
    (v ≠ s → v ≠ 0 → remap (s : Int) v = v) ∧
    remap ((0 : Nat) : Int) v = v := by
  refine ⟨?_, ?_, ?_, ?_⟩
  · intro h; rw [remap_eq s hs]; simp [h]
  · intro h0 hne; rw [remap_eq s hs, if_neg hne, if_pos h0]
  · intro hne h0; rw [remap_eq s hs]; simp [hne, h0]
  · rw [remap_eq 0 (by decide)]
    by_cases h : v = 0
    · simp [h]
    · simp [h]

/-- Witness of C3: swap index 2 on the pixel values 2, 0, 1 and 3. -/
theorem remap_spec_witness :
    remap 2 2 = 0 ∧ remap 2 0 = 2 ∧ remap 2 1 = 1 ∧ remap 2 3 = 3 ∧ remap 0 3 = 3 :=
  ⟨(remap_spec 2 2 (by decide)).1 rfl,
    (remap_spec 0 2 (by decide)).2.1 rfl (by decide),
    (remap_spec 1 2 (by decide)).2.2.1 (by decide) (by decide),
    (remap_spec 3 2 (by decide)).2.2.1 (by decide) (by decide),
    (remap_spec 3 2 (by decide)).2.2.2⟩

/-- C4. The swap keeps what every pixel denotes: for a table `t` (of at most 256
entries), a swap index `s` inside it and a pixel value `v`, the translated value
looked up in the swapped table gives what `v` gives in `t`: the same color when
`v` is inside the table, nothing in both when it is outside. -/
theorem lookup_remap_swapColors (t : List GifColorType) (s : Nat) (hs : s < t.length)
    (hlen : t.length ≤ 256) (v : GifPixelType) :
    ∃ t' : List GifColorType, swapColors t s = some t' ∧
      lookup t' (remap (s : Int) v) = lookup t v ∧
      (v < t.length → ∃ c : GifColorType,
        lookup t v = some c ∧ lookup t' (remap (s : Int) v) = some c) ∧
      (t.length ≤ v → lookup t v = none ∧ lookup t' (remap (s : Int) v) = none) := by
  obtain ⟨t', hsw, hl, hget⟩ := swapColors_getElem? t s hs
  have key : lookup t' (remap (s : Int) v) = lookup t v := by
    unfold lookup
    rw [remap_eq s (by omega), hget]
    by_cases h1 : v = s
    · simp [h1]
    · by_cases h2 : v = 0
      · subst h2
        have h3 : ¬ (s = 0) := fun e => h1 e.symm
        simp [h1, h3]
      · simp [h1, h2]
  refine ⟨t', hsw, key, ?_, ?_⟩
  · intro hv
    refine ⟨t[v], ?_, ?_⟩
    · simp [lookup, List.getElem?_eq_getElem hv]
    · rw [key]; simp [lookup, List.getElem?_eq_getElem hv]
  · intro hv
    have : lookup t v = none := by simp [lookup, hv]
    exact ⟨this, by rw [key]; exact this⟩

/-- Witness of C4: the table of scenario A, swap index 2, pixel value 0. -/
theorem lookup_remap_swapColors_witness :
    ∃ t' : List GifColorType,
      swapColors [⟨0, 253, 255⟩, ⟨10, 10, 10⟩, ⟨1, 2, 3⟩, ⟨4, 5, 6⟩] 2 = some t' ∧
      lookup t' (remap ((2 : Nat) : Int) 0)
        = lookup [⟨0, 253, 255⟩, ⟨10, 10, 10⟩, ⟨1, 2, 3⟩, ⟨4, 5, 6⟩] 0 ∧
      (0 < ([⟨0, 253, 255⟩, ⟨10, 10, 10⟩, ⟨1, 2, 3⟩, ⟨4, 5, 6⟩] :
          List GifColorType).length → ∃ c : GifColorType,
        lookup [⟨0, 253, 255⟩, ⟨10, 10, 10⟩, ⟨1, 2, 3⟩, ⟨4, 5, 6⟩] 0 = some c ∧
        lookup t' (remap ((2 : Nat) : Int) 0) = some c) ∧
      (([⟨0, 253, 255⟩, ⟨10, 10, 10⟩, ⟨1, 2, 3⟩, ⟨4, 5, 6⟩] :
          List GifColorType).length ≤ 0 →
        lookup [⟨0, 253, 255⟩, ⟨10, 10, 10⟩, ⟨1, 2, 3⟩, ⟨4, 5, 6⟩] 0 = none ∧
        lookup t' (remap ((2 : Nat) : Int) 0) = none) :=
  lookup_remap_swapColors [⟨0, 253, 255⟩, ⟨10, 10, 10⟩, ⟨1, 2, 3⟩, ⟨4, 5, 6⟩] 2
    (by decide) (by decide) 0

/-- Translating a line buffer twice with the same swap index and the same bound
gives the buffer back. -/
theorem translate_translate (s : Nat) (hs : s < 256) :
    ∀ (bound : Nat) (line : List GifPixelType),
      translate (s : Int) bound (translate (s : Int) bound line) = line := by
  intro bound
  induction bound with
  | zero => intro line; simp [translate]
  | succ n ih =>
    intro line
    cases line with
    | nil => simp [translate]
    | cons cp rest => simp [translate, remap_remap s hs, ih]

/-- The translation loop over a whole line is the translation of each pixel. -/
theorem translate_length_eq_map (m : Int) :
    ∀ (line : List GifPixelType), translate m line.length line = line.map (remap m) := by
  intro line
  induction line with
  | nil => simp [translate]
  | cons cp rest ih => simp [translate, ih]

/-- C6. Translation is an involution: for a swap index `s` (an index of a color
table, so below 256) and a pixel value `v`, translating twice gives `v` back; so
translating a whole scanline twice with the same `s` gives the line back. -/
theorem remap_involution (s : Nat) (hs : s < 256) :
    (∀ v : GifPixelType, remap (s : Int) (remap (s : Int) v) = v) ∧
    (∀ line : List GifPixelType,
      translate (s : Int) line.length (translate (s : Int) line.length line) = line) ∧
    (∀ line : List GifPixelType, (line.map (remap (s : Int))).map (remap (s : Int)) = line) := by
  refine ⟨remap_remap s hs, fun line => translate_translate s hs line.length line, ?_⟩
  intro line
  induction line with
  | nil => rfl
  | cons cp rest ih =>
    rw [List.map_cons, List.map_cons, remap_remap s hs, ih]

/-- Witness of C6: swap index 2 on the pixel values 0 and 2 and on a line. -/
theorem remap_involution_witness :
    remap 2 (remap 2 0) = 0 ∧ remap 2 (remap 2 2) = 2 ∧
    translate 2 4 (translate 2 4 [2, 0, 1, 3]) = [2, 0, 1, 3] ∧
    translate 2 4 [2, 0, 1, 3] = [0, 2, 1, 3] :=
  ⟨(remap_involution 2 (by decide)).1 0, (remap_involution 2 (by decide)).1 2,
    (remap_involution 2 (by decide)).2.1 [2, 0, 1, 3], by decide⟩

/-- C7. The swap is an involution: for a swap index `s` inside the table `t`,
swapping twice gives `t` back entry for entry; and the swap with index 0 gives
`t` itself. -/
theorem swapColors_involution (t : List GifColorType) (s : Nat) (hs : s < t.length) :
    (∃ t' : List GifColorType, swapColors t s = some t' ∧ swapColors t' s = some t) ∧
    swapColors t 0 = some t := by
  have h0 : 0 < t.length := by omega
  constructor
  · obtain ⟨t', hsw, hl, hget⟩ := swapColors_getElem? t s hs
    obtain ⟨t'', hsw', hl', hget'⟩ := swapColors_getElem? t' s (by omega)
    refine ⟨t', hsw, ?_⟩
    rw [hsw']
    congr 1
    apply List.ext_getElem?
    intro j
    rw [hget', hget, hget, hget]
    by_cases hj0 : j = 0
    · by_cases hs0 : s = 0
      · simp [hj0, hs0]
      · simp [hj0, hs0]
    · by_cases hjs : j = s
      · subst hjs
        simp [hj0]
      · simp [hj0, hjs]
  · obtain ⟨t', hsw, hl, hget⟩ := swapColors_getElem? t 0 h0
    rw [hsw]
    congr 1
    apply List.ext_getElem?
    intro j
    rw [hget]
    by_cases hj0 : j = 0
    · simp [hj0]
    · simp [hj0]

/-- Witness of C7: the table of scenario A with swap index 2. -/
theorem swapColors_involution_witness :
    (∃ t' : List GifColorType,
      swapColors [⟨0, 253, 255⟩, ⟨10, 10, 10⟩, ⟨1, 2, 3⟩, ⟨4, 5, 6⟩] 2 = some t' ∧
      swapColors t' 2 = some [⟨0, 253, 255⟩, ⟨10, 10, 10⟩, ⟨1, 2, 3⟩, ⟨4, 5, 6⟩]) ∧
    swapColors [⟨0, 253, 255⟩, ⟨10, 10, 10⟩, ⟨1, 2, 3⟩, ⟨4, 5, 6⟩] 0
      = some [⟨0, 253, 255⟩, ⟨10, 10, 10⟩, ⟨1, 2, 3⟩, ⟨4, 5, 6⟩] :=
  swapColors_involution [⟨0, 253, 255⟩, ⟨10, 10, 10⟩, ⟨1, 2, 3⟩, ⟨4, 5, 6⟩] 2 (by decide)

/-! ## Properties of the record loop -/

theorem Extends.refl (tr : List Event) : Extends tr tr :=
  ⟨[], by simp, by simp⟩

theorem Extends.trans {a b c : List Event} (h1 : Extends a b) (h2 : Extends b c) :
    Extends a c := by
  obtain ⟨e1, rfl, he1⟩ := h1
  obtain ⟨e2, rfl, he2⟩ := h2
  refine ⟨e1 ++ e2, by simp, ?_⟩
  intro e he
  rcases List.mem_append.1 he with h | h
  · exact he1 e h
  · exact he2 e h

theorem Extends.snoc (tr : List Event) (e : Event) (he : e.afterScreenDesc = true) :
    Extends tr (tr ++ [e]) :=
  ⟨[e], rfl, by simpa using he⟩

theorem Extends.append (tr ext : List Event) (h : ∀ e ∈ ext, e.afterScreenDesc = true) :
    Extends tr (tr ++ ext) :=
  ⟨ext, rfl, h⟩

theorem outputRecordTypes_append (a b : List Event) :
    outputRecordTypes (a ++ b) = outputRecordTypes a ++ outputRecordTypes b := by
  simp [outputRecordTypes]

theorem close_dgiffile_eq (w : World) (tr : List Event) :
    close_dgiffile w tr = tr ++ close_dgiffile w [] := by
  unfold close_dgiffile
  cases w.DGifCloseFile <;> simp

theorem close_egiffile_eq (w : World) (tr : List Event) :
    close_egiffile w tr = tr ++ close_egiffile w [] := by
  unfold close_egiffile
  cases w.EGifCloseFile <;> simp

theorem close_dgiffile_after (w : World) :
    ∀ e ∈ close_dgiffile w [], e.afterScreenDesc = true ∧ e.onOutput = false ∧
      e.recordType = none := by
  unfold close_dgiffile
  cases w.DGifCloseFile <;> simp [Event.afterScreenDesc, Event.onOutput, Event.recordType]

theorem close_egiffile_after (w : World) :
    ∀ e ∈ close_egiffile w [], e.afterScreenDesc = true := by
  unfold close_egiffile
  cases w.EGifCloseFile <;> simp [Event.afterScreenDesc]

theorem close_egiffile_types (w : World) :
    outputRecordTypes (close_egiffile w []) = [.TERMINATE_RECORD_TYPE] := by
  unfold close_egiffile
  cases w.EGifCloseFile <;> simp [outputRecordTypes, Event.recordType]

theorem close_dgiffile_types (w : World) :
    outputRecordTypes (close_dgiffile w []) = [] := by
  unfold close_dgiffile
  cases w.DGifCloseFile <;> simp [outputRecordTypes, Event.recordType]

/-- The full cleanup: the input file is closed, then the output file, then the
color map is released. -/
theorem cleanup_res_all (w : World) (tr : List Event) :
    cleanup_res w true true true tr
      = tr ++ (close_dgiffile w [] ++ close_egiffile w [] ++ [.GifFreeMapObject]) := by
  simp only [cleanup_res, free_mapobject, if_true]
  rw [close_egiffile_eq, close_dgiffile_eq]
  simp

/-- The cleanup before the output file is opened: the input file is closed, then
the color map is released. -/
theorem cleanup_res_input (w : World) (tr : List Event) :
    cleanup_res w true false true tr
      = tr ++ (close_dgiffile w [] ++ [.GifFreeMapObject]) := by
  simp only [cleanup_res, free_mapobject, if_true]
  rw [close_dgiffile_eq]
  simp

theorem cleanup_res_all_extends (w : World) (tr : List Event) :
    Extends tr (cleanup_res w true true true tr) := by
  rw [cleanup_res_all]
  apply Extends.append
  intro e he
  simp only [List.mem_append, List.mem_singleton] at he
  rcases he with (h | h) | h
  · exact (close_dgiffile_after w e h).1
  · exact close_egiffile_after w e h
  · subst h; rfl

theorem cleanup_res_all_types (w : World) (tr : List Event) :
    outputRecordTypes (cleanup_res w true true true tr)
      = outputRecordTypes tr ++ [.TERMINATE_RECORD_TYPE] := by
  rw [cleanup_res_all]
  simp [outputRecordTypes_append, close_dgiffile_types, close_egiffile_types]
  simp [outputRecordTypes, Event.recordType]

theorem CLI.fatal_failed (w : World) (text : String) (tr tr0 : List Event)
    (h : Extends tr0 tr) : Failed tr0 (CLI.fatal w text tr) := by
  refine ⟨rfl, ?_⟩
  have h2 : Extends tr (CLI.fatal w text tr).trace := by
    show Extends tr (cleanup_res w true true true tr ++ [.stderr text])
    exact (cleanup_res_all_extends w tr).trans (Extends.snoc _ _ rfl)
  exact h.trans h2

theorem CLI.lineLoop_inv (w : World) (m : Int) (Width : Nat) :
    ∀ (n : Nat) (lines : List (Option (List GifPixelType))) (tr : List Event),
      (∀ tr', CLI.lineLoop w m Width n lines tr = .ok tr' →
        Extends tr tr' ∧ outputRecordTypes tr' = outputRecordTypes tr) ∧
      (∀ run, CLI.lineLoop w m Width n lines tr = .error run → Failed tr run) := by
  intro n
  induction n with
  | zero =>
    intro lines tr
    simp only [CLI.lineLoop]
    refine ⟨?_, ?_⟩
    · intro tr' h
      cases h
      exact ⟨Extends.refl tr, rfl⟩
    · intro run h; cases h
  | succ n ih =>
    intro lines tr
    match lines with
    | [] =>
      simp only [CLI.lineLoop]
      refine ⟨fun tr' h => (by cases h), fun run h => ?_⟩
      cases h
      exact CLI.fatal_failed w _ tr tr (Extends.refl tr)
    | none :: rest =>
      simp only [CLI.lineLoop]
      refine ⟨fun tr' h => (by cases h), fun run h => ?_⟩
      cases h
      exact CLI.fatal_failed w _ tr tr (Extends.refl tr)
    | some got :: rest =>
      simp only [CLI.lineLoop]
      have hsn : Extends tr (tr ++ [Event.EGifPutLine (translate m Width got)]) :=
        Extends.snoc _ _ rfl
      split
      · refine ⟨fun tr' h => (by cases h), fun run h => ?_⟩
        cases h
        exact CLI.fatal_failed w _ tr tr (Extends.refl tr)
      · split
        · refine ⟨fun tr' h => (by cases h), fun run h => ?_⟩
          cases h
          exact CLI.fatal_failed w _ _ tr hsn
        · obtain ⟨ih1, ih2⟩ := ih rest (tr ++ [Event.EGifPutLine (translate m Width got)])
          refine ⟨fun tr' h => ?_, fun run h => ?_⟩
          · obtain ⟨hx, ht⟩ := ih1 tr' h
            refine ⟨hsn.trans hx, ?_⟩
            rw [ht, outputRecordTypes_append]
            simp [outputRecordTypes, Event.recordType]
          · obtain ⟨ho, hx⟩ := ih2 run h
            exact ⟨ho, hsn.trans hx⟩

theorem CLI.imageCase_inv (w : World) (m : Int) (desc : Option GifImageDesc)
    (lines : List (Option (List GifPixelType))) (tr : List Event) :
    (∀ tr', CLI.imageCase w m desc lines tr = .ok tr' →
      Extends tr tr' ∧
      outputRecordTypes tr' = outputRecordTypes tr ++ [.IMAGE_DESC_RECORD_TYPE]) ∧
    (∀ run, CLI.imageCase w m desc lines tr = .error run → Failed tr run) := by
  cases desc with
  | none =>
    simp only [CLI.imageCase]
    refine ⟨fun tr' h => (by cases h), fun run h => ?_⟩
    cases h
    exact CLI.fatal_failed w _ tr tr (Extends.refl tr)
  | some Image =>
    simp only [CLI.imageCase]
    have hsn : Extends tr (tr ++ [Event.EGifPutImageDesc Image.Left Image.Top Image.Width
        Image.Height Image.Interlace Image.ColorMap]) := Extends.snoc _ _ rfl
    split
    · refine ⟨fun tr' h => (by cases h), fun run h => ?_⟩
      cases h
      exact CLI.fatal_failed w _ _ tr hsn
    · obtain ⟨h1, h2⟩ := CLI.lineLoop_inv w m Image.Width Image.Height lines
        (tr ++ [Event.EGifPutImageDesc Image.Left Image.Top Image.Width
          Image.Height Image.Interlace Image.ColorMap])
      refine ⟨fun tr' h => ?_, fun run h => ?_⟩
      · obtain ⟨hx, ht⟩ := h1 tr' h
        refine ⟨hsn.trans hx, ?_⟩
        rw [ht, outputRecordTypes_append]
        simp [outputRecordTypes, Event.recordType]
      · obtain ⟨ho, hx⟩ := h2 run h
        exact ⟨ho, hsn.trans hx⟩

theorem CLI.extensionLoop_inv (w : World) :
    ∀ (chain : List (Option ExtensionBlock)) (tr : List Event),
      (∀ tr', CLI.extensionLoop w chain tr = .ok tr' →
        Extends tr tr' ∧ outputRecordTypes tr' = outputRecordTypes tr) ∧
      (∀ run, CLI.extensionLoop w chain tr = .error run → Failed tr run) := by
  intro chain
  induction chain with
  | nil =>
    intro tr
    simp only [CLI.extensionLoop]
    refine ⟨fun tr' h => ?_, fun run h => (by cases h)⟩
    cases h
    exact ⟨Extends.refl tr, rfl⟩
  | cons a rest ih =>
    intro tr
    cases a with
    | none =>
      simp only [CLI.extensionLoop]
      refine ⟨fun tr' h => (by cases h), fun run h => ?_⟩
      cases h
      exact CLI.fatal_failed w _ tr tr (Extends.refl tr)
    | some b =>
      simp only [CLI.extensionLoop]
      have hsn : Extends tr (tr ++ [Event.EGifPutExtensionBlock b.count b.bytes]) :=
        Extends.snoc _ _ rfl
      split
      · refine ⟨fun tr' h => (by cases h), fun run h => ?_⟩
        cases h
        exact CLI.fatal_failed w _ _ tr hsn
      · obtain ⟨ih1, ih2⟩ := ih (tr ++ [Event.EGifPutExtensionBlock b.count b.bytes])
        refine ⟨fun tr' h => ?_, fun run h => ?_⟩
        · obtain ⟨hx, ht⟩ := ih1 tr' h
          refine ⟨hsn.trans hx, ?_⟩
          rw [ht, outputRecordTypes_append]
          simp [outputRecordTypes, Event.recordType]
        · obtain ⟨ho, hx⟩ := ih2 run h
          exact ⟨ho, hsn.trans hx⟩

theorem CLI.extensionCase_inv (w : World) (extcode : Int)
    (chain : List (Option ExtensionBlock)) (tr : List Event) :
    (∀ tr', CLI.extensionCase w extcode chain tr = .ok tr' →
      Extends tr tr' ∧
      outputRecordTypes tr' = outputRecordTypes tr ++
        (if chain.isEmpty then [] else [.EXTENSION_RECORD_TYPE])) ∧
    (∀ run, CLI.extensionCase w extcode chain tr = .error run → Failed tr run) := by
  match chain with
  | [] =>
    simp only [CLI.extensionCase]
    refine ⟨fun tr' h => ?_, fun run h => (by cases h)⟩
    cases h
    exact ⟨Extends.refl tr, by simp⟩
  | none :: rest =>
    simp only [CLI.extensionCase]
    refine ⟨fun tr' h => (by cases h), fun run h => ?_⟩
    cases h
    exact CLI.fatal_failed w _ tr tr (Extends.refl tr)
  | some b :: rest =>
    simp only [CLI.extensionCase]
    have hs1 : Extends tr (tr ++ [Event.EGifPutExtensionLeader extcode]) :=
      Extends.snoc _ _ rfl
    have hs2 : Extends tr (tr ++ [Event.EGifPutExtensionLeader extcode] ++
        [Event.EGifPutExtensionBlock b.count b.bytes]) :=
      hs1.trans (Extends.snoc _ _ rfl)
    split
    · refine ⟨fun tr' h => (by cases h), fun run h => ?_⟩
      cases h
      exact CLI.fatal_failed w _ _ tr hs1
    · split
      · refine ⟨fun tr' h => (by cases h), fun run h => ?_⟩
        cases h
        exact CLI.fatal_failed w _ _ tr hs2
      · obtain ⟨h1, h2⟩ := CLI.extensionLoop_inv w rest
          (tr ++ [Event.EGifPutExtensionLeader extcode] ++
            [Event.EGifPutExtensionBlock b.count b.bytes])
        split
        · rename_i run0 hrun
          refine ⟨fun tr' h => (by cases h), fun run h => ?_⟩
          cases h
          obtain ⟨ho, hx⟩ := h2 run0 hrun
          exact ⟨ho, hs2.trans hx⟩
        · rename_i tr1 htr1
          obtain ⟨hx, ht⟩ := h1 tr1 htr1
          split
          · refine ⟨fun tr' h => (by cases h), fun run h => ?_⟩
            cases h
            exact CLI.fatal_failed w _ _ tr ((hs2.trans hx).trans (Extends.snoc _ _ rfl))
          · refine ⟨fun tr' h => ?_, fun run h => (by cases h)⟩
            cases h
            refine ⟨(hs2.trans hx).trans (Extends.snoc _ _ rfl), ?_⟩
            rw [outputRecordTypes_append, ht, outputRecordTypes_append,
              outputRecordTypes_append]
            simp [outputRecordTypes, Event.recordType]

theorem CLI.recordCase_inv (w : World) (m : Int) (record : Record) (tr : List Event)
    (hr : record ≠ .terminate) :
    (∀ tr', CLI.recordCase w m record tr = .ok tr' →
      Extends tr tr' ∧
      outputRecordTypes tr' = outputRecordTypes tr ++
        (if record.isWritten then [record.type] else [])) ∧
    (∀ run, CLI.recordCase w m record tr = .error run → Failed tr run) := by
  cases record with
  | image desc lines =>
    simpa [CLI.recordCase, Record.isWritten, Record.type] using
      CLI.imageCase_inv w m desc lines tr
  | extension extcode chain =>
    have h := CLI.extensionCase_inv w extcode chain tr
    cases chain with
    | nil => simpa [CLI.recordCase, Record.isWritten, Record.type] using h
    | cons a rest => simpa [CLI.recordCase, Record.isWritten, Record.type] using h
  | terminate => exact absurd rfl hr
  | undefined =>
    simp only [CLI.recordCase]
    refine ⟨fun tr' h => ?_, fun run h => (by cases h)⟩
    cases h
    exact ⟨Extends.refl tr, by simp [Record.isWritten]⟩
  | screenDesc =>
    simp only [CLI.recordCase]
    refine ⟨fun tr' h => ?_, fun run h => (by cases h)⟩
    cases h
    exact ⟨Extends.refl tr, by simp [Record.isWritten]⟩

/-- The record loop, from any trace: the run ends with status 0 or through the
fatal error path, its trace extends the one it starts from, and when it ends with
status 0 the record types written are those of the records read for which the
loop writes a record. -/
theorem CLI.recordLoop_inv (w : World) (m : Int) :
    ∀ (records : List (Option Record)) (tr : List Event),
      Extends tr (CLI.recordLoop w m records tr).trace ∧
      ((CLI.recordLoop w m records tr).outcome = .exit 0 ∨
        (CLI.recordLoop w m records tr).outcome = .exit 1) ∧
      ((CLI.recordLoop w m records tr).outcome = .exit 0 →
        outputRecordTypes (CLI.recordLoop w m records tr).trace
          = outputRecordTypes tr ++
            ((recordsRead records).filter Record.isWritten).map Record.type) := by
  intro records
  induction records with
  | nil =>
    intro tr
    obtain ⟨ho, hx⟩ := CLI.fatal_failed w "Error reading next record\n" tr tr (Extends.refl tr)
    simp only [CLI.recordLoop]
    exact ⟨hx, Or.inr ho, fun h => by rw [ho] at h; cases h⟩
  | cons a rest ih =>
    intro tr
    cases a with
    | none =>
      obtain ⟨ho, hx⟩ :=
        CLI.fatal_failed w "Error reading next record\n" tr tr (Extends.refl tr)
      simp only [CLI.recordLoop]
      exact ⟨hx, Or.inr ho, fun h => by rw [ho] at h; cases h⟩
    | some record =>
      have step : ∀ (r : Record), r ≠ .terminate → recordsRead (some r :: rest)
          = r :: recordsRead rest := by
        intro r hr
        cases r <;> first | rfl | exact absurd rfl hr
      have loop : ∀ (r : Record), r ≠ .terminate →
          CLI.recordLoop w m (some r :: rest) tr =
            (match CLI.recordCase w m r tr with
              | .error run => run
              | .ok tr => CLI.recordLoop w m rest tr) := by
        intro r hr
        cases r <;> first | rfl | exact absurd rfl hr
      by_cases hterm : record = .terminate
      · subst hterm
        simp only [CLI.recordLoop, recordsRead]
        refine ⟨cleanup_res_all_extends w tr, Or.inl trivial, fun _ => ?_⟩
        rw [cleanup_res_all_types]
        simp [Record.isWritten, Record.type]
      · rw [loop record hterm, step record hterm]
        obtain ⟨h1, h2⟩ := CLI.recordCase_inv w m record tr hterm
        cases hc : CLI.recordCase w m record tr with
        | error run =>
          obtain ⟨ho, hx⟩ := h2 run hc
          exact ⟨hx, Or.inr ho, fun h => by rw [ho] at h; cases h⟩
        | ok tr1 =>
          obtain ⟨hx, ht⟩ := h1 tr1 hc
          obtain ⟨ix, io, it⟩ := ih tr1
          refine ⟨hx.trans ix, io, fun h => ?_⟩
          show outputRecordTypes (CLI.recordLoop w m rest tr1).trace = _
          rw [it h, ht]
          by_cases hw : record.isWritten = true
          · simp [hw, List.filter_cons]
          · simp [hw, List.filter_cons]

/-! ## Properties of `main` -/

/-- The three calls `main` makes on the output file before the record loop, for
the input file `f`, the swapped table `table` and the output file name. -/
theorem CLI.main_located (argv : CLI.Argv) (w : World) (f : GifFileType)
    (cm : ColorMapObject) (s : Nat) (table : List GifColorType)
    (hargc : 6 ≤ argv.argc)
    (hopen : w.DGifOpenFileName argv.input_filename = some f)
    (hmap : f.SColorMap = some cm)
    (hmade : w.mapObjectMade = true)
    (hloc : locator cm.Colors (CLI.target_trans_color argv) = .ok (s : Int))
    (hs : s < cm.Colors.length)
    (hswap : swapColors cm.Colors s = some table)
    (hout : w.EGifOpenFileName argv.output_filename = none) :
    CLI.main argv w =
      if w.GIF_ERROR [.EGifOpenFileName argv.output_filename, .EGifSetGifVersion true]
          (.EGifPutScreenDesc f.SWidth f.SHeight f.SColorResolution f.SBackGroundColor
            ⟨table⟩) then
        CLI.exitnow 1 ("Cannot put screen description to output file " ++
            argv.output_filename ++ "\n")
          (cleanup_res w true true true
            [.EGifOpenFileName argv.output_filename, .EGifSetGifVersion true,
              .EGifPutScreenDesc f.SWidth f.SHeight f.SColorResolution f.SBackGroundColor
                ⟨table⟩])
      else
        CLI.recordLoop w (s : Int) f.records
          [.EGifOpenFileName argv.output_filename, .EGifSetGifVersion true,
            .EGifPutScreenDesc f.SWidth f.SHeight f.SColorResolution f.SBackGroundColor
              ⟨table⟩] := by
  have hargc' : ¬ argv.argc < 6 := by omega
  have hlen : ¬ cm.ColorCount ≤ 0 := by
    unfold ColorMapObject.ColorCount; omega
  have htake : List.take cm.ColorCount cm.Colors = cm.Colors := by
    unfold ColorMapObject.ColorCount; simp
  have hneg : ¬ ((s : Int) < 0) := by omega
  simp only [CLI.main, if_neg hargc', hopen, hmap, GifMakeMapObject, hmade, if_true, htake,
    Option.isNone_some, Bool.false_eq_true, if_false, if_neg hlen, hloc, if_neg hneg,
    Int.toNat_ofNat, hswap, hout, List.cons_append, List.nil_append]

/-- C5. Command line variant, screen descriptor: for an input whose global color
table holds the target once (the input is opened, the color map object is made
and the output file is opened), the color table passed to `EGifPutScreenDesc` is
the swapped table, its entry 0 is the target, and the width, height, color
resolution and background index passed with it are those of the input; no other
screen descriptor is written. -/
theorem main_screen_desc (argv : CLI.Argv) (w : World) (gif_filein : GifFileType)
    (SColorMap : ColorMapObject)
    (hargc : 6 ≤ argv.argc)
    (hopen : w.DGifOpenFileName argv.input_filename = some gif_filein)
    (hmap : gif_filein.SColorMap = some SColorMap)
    (hmade : w.mapObjectMade = true)
    (hout : w.EGifOpenFileName argv.output_filename = none)
    (hcount : SColorMap.Colors.count (CLI.target_trans_color argv) = 1) :
    ∃ (s : Nat) (table : List GifColorType) (rest : List Event),
      SColorMap.Colors[s]? = some (CLI.target_trans_color argv) ∧
      swapColors SColorMap.Colors s = some table ∧
      table[0]? = some (CLI.target_trans_color argv) ∧
      (CLI.main argv w).trace =
        [.EGifOpenFileName argv.output_filename, .EGifSetGifVersion true,
          .EGifPutScreenDesc gif_filein.SWidth gif_filein.SHeight
            gif_filein.SColorResolution gif_filein.SBackGroundColor ⟨table⟩] ++ rest ∧
      ∀ e ∈ rest, e.afterScreenDesc = true := by
  obtain ⟨_, h1, _⟩ := locator_by_count SColorMap.Colors (CLI.target_trans_color argv)
  obtain ⟨s, hs, hget, _, hloc⟩ := h1 hcount
  obtain ⟨table, hsw, _, hg⟩ := swapColors_getElem? SColorMap.Colors s hs
  have hx : Extends [.EGifOpenFileName argv.output_filename, .EGifSetGifVersion true,
      .EGifPutScreenDesc gif_filein.SWidth gif_filein.SHeight
        gif_filein.SColorResolution gif_filein.SBackGroundColor ⟨table⟩]
      (CLI.main argv w).trace := by
    rw [CLI.main_located argv w gif_filein SColorMap s table hargc hopen hmap hmade hloc hs
      hsw hout]
    split
    · exact (CLI.fatal_failed w _ _ _ (Extends.refl _)).2
    · exact (CLI.recordLoop_inv w (s : Int) gif_filein.records _).1
  obtain ⟨rest, hrest, hall⟩ := hx
  refine ⟨s, table, rest, hget, hsw, ?_, hrest, hall⟩
  rw [hg 0]
  simpa using hget

/-- Witness of C5: scenario A. -/
theorem main_screen_desc_witness :
    ∃ (s : Nat) (table : List GifColorType) (rest : List Event),
      scenarioTable[s]? = some (CLI.target_trans_color scenarioArgv) ∧
      swapColors scenarioTable s = some table ∧
      table[0]? = some (CLI.target_trans_color scenarioArgv) ∧
      (CLI.main scenarioArgv (quietWorld (inputFile scenarioTable scenarioRecords))).trace =
        [.EGifOpenFileName "output.gif", .EGifSetGifVersion true,
          .EGifPutScreenDesc 2 2 2 0 ⟨table⟩] ++ rest ∧
      ∀ e ∈ rest, e.afterScreenDesc = true :=
  main_screen_desc scenarioArgv (quietWorld (inputFile scenarioTable scenarioRecords))
    (inputFile scenarioTable scenarioRecords) ⟨scenarioTable⟩
    (by decide) rfl rfl rfl rfl (by decide)

/-- The run of scenario A, call by call. -/
theorem main_scenario_run :
    CLI.main scenarioArgv (quietWorld (inputFile scenarioTable scenarioRecords)) =
      ⟨[.EGifOpenFileName "output.gif", .EGifSetGifVersion true,
          .EGifPutScreenDesc 2 2 2 0
            ⟨[⟨1, 2, 3⟩, ⟨10, 10, 10⟩, ⟨0, 253, 255⟩, ⟨4, 5, 6⟩]⟩,
          .EGifPutExtensionLeader 249, .EGifPutExtensionBlock 4 [1, 0, 0, 2],
          .EGifPutExtensionTrailer,
          .EGifPutImageDesc 0 0 2 2 false none, .EGifPutLine [0, 2], .EGifPutLine [1, 3],
          .DGifCloseFile, .EGifCloseFile, .GifFreeMapObject], .exit 0⟩ := by
  decide

theorem two_le_of_ne_zero_of_ne_one (n : Nat) (h0 : n ≠ 0) (h1 : n ≠ 1) : 2 ≤ n := by
  omega

/-- A run that ends through `exitnow(1, ...)` after the cleanup of the input file
and of the color map only: its status is 1 and it makes no call on the output
file. -/
theorem CLI.exit_before_output (w : World) (text : String) :
    (CLI.exitnow 1 text (cleanup_res w true false true [])).outcome = .exit 1 ∧
    (∀ e ∈ (CLI.exitnow 1 text (cleanup_res w true false true [])).trace,
      e.onOutput = false) ∧
    (CLI.exitnow 1 text (cleanup_res w true false true [])).trace
      = close_dgiffile w [] ++ [.GifFreeMapObject, .stderr text] := by
  have htr : (CLI.exitnow 1 text (cleanup_res w true false true [])).trace
      = close_dgiffile w [] ++ [.GifFreeMapObject, .stderr text] := by
    simp [CLI.exitnow, cleanup_res_input]
  refine ⟨rfl, ?_, htr⟩
  rw [htr]
  intro e he
  simp only [List.mem_append, List.mem_cons, List.mem_singleton, List.not_mem_nil,
    or_false] at he
  rcases he with h | h | h
  · exact (close_dgiffile_after w e h).2.1
  · subst h; rfl
  · subst h; rfl

/-- What `main` does when the locator fails or is not reached. -/
theorem CLI.main_not_located (argv : CLI.Argv) (w : World) (f : GifFileType)
    (cm : ColorMapObject)
    (hargc : 6 ≤ argv.argc)
    (hopen : w.DGifOpenFileName argv.input_filename = some f)
    (hmap : f.SColorMap = some cm)
    (hcount : cm.Colors.count (CLI.target_trans_color argv) ≠ 1) :
    (∃ text, CLI.main argv w = CLI.exitnow 1 text (cleanup_res w true false true [])) ∧
    (w.mapObjectMade = true → cm.Colors ≠ [] →
      cm.Colors.count (CLI.target_trans_color argv) = 0 →
      CLI.main argv w = CLI.exitnow 1
        "Not found target color to rearrange in colormap. Quit now.\n"
        (cleanup_res w true false true [])) ∧
    (w.mapObjectMade = true → 2 ≤ cm.Colors.count (CLI.target_trans_color argv) →
      CLI.main argv w = CLI.exitnow 1
        "There should not be duplicated transparent color in colormap. Quit now.\n"
        (cleanup_res w true false true [])) := by
  have hargc' : ¬ argv.argc < 6 := by omega
  have htake : List.take cm.ColorCount cm.Colors = cm.Colors := by
    unfold ColorMapObject.ColorCount; simp
  obtain ⟨l0, _, l2⟩ := locator_by_count cm.Colors (CLI.target_trans_color argv)
  have hnotfound : w.mapObjectMade = true → cm.Colors ≠ [] →
      cm.Colors.count (CLI.target_trans_color argv) = 0 →
      CLI.main argv w = CLI.exitnow 1
        "Not found target color to rearrange in colormap. Quit now.\n"
        (cleanup_res w true false true []) := by
    intro hmade hne h0
    have hlen : ¬ cm.ColorCount ≤ 0 := by
      unfold ColorMapObject.ColorCount
      have := List.length_pos.2 hne
      omega
    simp only [CLI.main, if_neg hargc', hopen, hmap, GifMakeMapObject, hmade, if_true, htake,
      Option.isNone_some, Bool.false_eq_true, if_false, if_neg hlen, l0 h0]
  have hdup : w.mapObjectMade = true → 2 ≤ cm.Colors.count (CLI.target_trans_color argv) →
      CLI.main argv w = CLI.exitnow 1
        "There should not be duplicated transparent color in colormap. Quit now.\n"
        (cleanup_res w true false true []) := by
    intro hmade h2
    have hne : cm.Colors ≠ [] := by
      intro e
      rw [e] at h2
      simp at h2
    have hlen : ¬ cm.ColorCount ≤ 0 := by
      unfold ColorMapObject.ColorCount
      have := List.length_pos.2 hne
      omega
    simp only [CLI.main, if_neg hargc', hopen, hmap, GifMakeMapObject, hmade, if_true, htake,
      Option.isNone_some, Bool.false_eq_true, if_false, if_neg hlen, l2 h2]
  refine ⟨?_, hnotfound, hdup⟩
  by_cases hmade : w.mapObjectMade = true
  · by_cases hne : cm.Colors = []
    · have hlen : cm.ColorCount ≤ 0 := by
        unfold ColorMapObject.ColorCount; simp [hne]
      exact ⟨"Error number of colors in colormap is 0\n", by
        simp only [CLI.main, if_neg hargc', hopen, hmap, GifMakeMapObject, hmade, if_true,
          htake, Option.isNone_some, Bool.false_eq_true, if_false, if_pos hlen]⟩
    · by_cases h0 : cm.Colors.count (CLI.target_trans_color argv) = 0
      · exact ⟨_, hnotfound hmade hne h0⟩
      · exact ⟨_, hdup hmade (two_le_of_ne_zero_of_ne_one _ h0 hcount)⟩
  · have hmade' : w.mapObjectMade = false := by
      cases h : w.mapObjectMade
      · rfl
      · exact absurd h hmade
    exact ⟨"Error creating colormap object\n", by
      simp only [CLI.main, if_neg hargc', hopen, hmap, GifMakeMapObject, hmade',
        Bool.false_eq_true, if_false]⟩

/-- C8. Command line variant, locator failure: for an input (opened, with a
global color table) whose table holds the target in no entry or in two entries or
more, the run ends with exit status 1 after the cleanup (the input file is
closed, the color map is released, the text is printed), and no call is made on
the output file: it is not opened and nothing is written to it. The text is the
one of `ColorNotFound`, respectively `DuplicateColor`, when the locator is the
step that fails. -/
theorem main_locator_failure (argv : CLI.Argv) (w : World) (gif_filein : GifFileType)
    (SColorMap : ColorMapObject)
    (hargc : 6 ≤ argv.argc)
    (hopen : w.DGifOpenFileName argv.input_filename = some gif_filein)
    (hmap : gif_filein.SColorMap = some SColorMap)
    (hcount : SColorMap.Colors.count (CLI.target_trans_color argv) ≠ 1) :
    (CLI.main argv w).outcome = .exit 1 ∧
    (∀ e ∈ (CLI.main argv w).trace, e.onOutput = false) ∧
    (∃ text, (CLI.main argv w).trace
      = close_dgiffile w [] ++ [.GifFreeMapObject, .stderr text]) ∧
    (w.mapObjectMade = true → SColorMap.Colors ≠ [] →
      SColorMap.Colors.count (CLI.target_trans_color argv) = 0 →
      (CLI.main argv w).trace = close_dgiffile w [] ++ [.GifFreeMapObject,
        .stderr "Not found target color to rearrange in colormap. Quit now.\n"]) ∧
    (w.mapObjectMade = true → 2 ≤ SColorMap.Colors.count (CLI.target_trans_color argv) →
      (CLI.main argv w).trace = close_dgiffile w [] ++ [.GifFreeMapObject,
        .stderr "There should not be duplicated transparent color in colormap. Quit now.\n"]) := by
  obtain ⟨⟨text, hrun⟩, hnf, hdup⟩ :=
    CLI.main_not_located argv w gif_filein SColorMap hargc hopen hmap hcount
  obtain ⟨ho, hno, htr⟩ := CLI.exit_before_output w text
  refine ⟨?_, ?_, ⟨text, ?_⟩, ?_, ?_⟩
  · rw [hrun]; exact ho
  · rw [hrun]; exact hno
  · rw [hrun]; exact htr
  · intro hmade hne h0
    rw [hnf hmade hne h0]
    exact (CLI.exit_before_output w _).2.2
  · intro hmade h2
    rw [hdup hmade h2]
    exact (CLI.exit_before_output w _).2.2

/-- Witness of C8: the table with `(1,2,3)` at the indices 2 and 5 and the target
`(1,2,3)` (scenario B), and the run it gives. -/
theorem main_locator_failure_witness :
    CLI.main scenarioArgv (quietWorld (inputFile duplicateTable scenarioRecords)) =
      ⟨[.DGifCloseFile, .GifFreeMapObject,
        .stderr "There should not be duplicated transparent color in colormap. Quit now.\n"],
        .exit 1⟩ ∧
    (CLI.main scenarioArgv (quietWorld (inputFile duplicateTable scenarioRecords))).outcome
      = .exit 1 ∧
    ∀ e ∈ (CLI.main scenarioArgv
        (quietWorld (inputFile duplicateTable scenarioRecords))).trace, e.onOutput = false :=
  ⟨by decide,
    (main_locator_failure scenarioArgv (quietWorld (inputFile duplicateTable scenarioRecords))
      (inputFile duplicateTable scenarioRecords) ⟨duplicateTable⟩
      (by decide) rfl rfl (by decide)).1,
    (main_locator_failure scenarioArgv (quietWorld (inputFile duplicateTable scenarioRecords))
      (inputFile duplicateTable scenarioRecords) ⟨duplicateTable⟩
      (by decide) rfl rfl (by decide)).2.1⟩

/-- A run of `main` that ends with status 0 went through the record loop. -/
theorem CLI.main_exit_zero (argv : CLI.Argv) (w : World)
    (h : (CLI.main argv w).outcome = .exit 0) :
    ∃ (f : GifFileType) (table : List GifColorType) (m : Int),
      w.DGifOpenFileName argv.input_filename = some f ∧
      CLI.main argv w = CLI.recordLoop w m f.records
        [.EGifOpenFileName argv.output_filename, .EGifSetGifVersion true,
          .EGifPutScreenDesc f.SWidth f.SHeight f.SColorResolution f.SBackGroundColor
            ⟨table⟩] := by
  by_cases hargc : argv.argc < 6
  · simp only [CLI.main, if_pos hargc] at h
    split at h <;> simp at h
  cases hopen : w.DGifOpenFileName argv.input_filename with
  | none => simp [CLI.main, hargc, hopen, CLI.exitnow] at h
  | some f =>
  cases hmap : f.SColorMap with
  | none => simp [CLI.main, hargc, hopen, hmap] at h
  | some cm =>
  cases hmade : w.mapObjectMade with
  | false => simp [CLI.main, hargc, hopen, hmap, GifMakeMapObject, hmade, CLI.exitnow] at h
  | true =>
  have htake : List.take cm.ColorCount cm.Colors = cm.Colors := by
    unfold ColorMapObject.ColorCount; simp
  by_cases hlen : cm.ColorCount ≤ 0
  · simp only [CLI.main, if_neg hargc, hopen, hmap, GifMakeMapObject, hmade, if_true, htake,
      Option.isNone_some, Bool.false_eq_true, if_false, if_pos hlen, CLI.exitnow] at h
    simp at h
  cases hloc : locator cm.Colors (CLI.target_trans_color argv) with
  | error e =>
    cases e <;>
    · simp only [CLI.main, if_neg hargc, hopen, hmap, GifMakeMapObject, hmade, if_true, htake,
        Option.isNone_some, Bool.false_eq_true, if_false, if_neg hlen, hloc, CLI.exitnow] at h
      simp at h
  | ok m =>
  by_cases hneg : m < 0
  · simp only [CLI.main, if_neg hargc, hopen, hmap, GifMakeMapObject, hmade, if_true, htake,
      Option.isNone_some, Bool.false_eq_true, if_false, if_neg hlen, hloc, if_pos hneg] at h
    simp at h
  cases hswap : swapColors cm.Colors m.toNat with
  | none =>
    simp only [CLI.main, if_neg hargc, hopen, hmap, GifMakeMapObject, hmade, if_true, htake,
      Option.isNone_some, Bool.false_eq_true, if_false, if_neg hlen, hloc, if_neg hneg,
      hswap] at h
    simp at h
  | some table =>
  cases hout : w.EGifOpenFileName argv.output_filename with
  | some error_code =>
    simp only [CLI.main, if_neg hargc, hopen, hmap, GifMakeMapObject, hmade, if_true, htake,
      Option.isNone_some, Bool.false_eq_true, if_false, if_neg hlen, hloc, if_neg hneg,
      hswap, hout, CLI.exitnow] at h
    simp at h
  | none =>
  by_cases hput : w.GIF_ERROR
      [.EGifOpenFileName argv.output_filename, .EGifSetGifVersion true]
      (.EGifPutScreenDesc f.SWidth f.SHeight f.SColorResolution f.SBackGroundColor
        ⟨table⟩) = true
  · simp only [CLI.main, if_neg hargc, hopen, hmap, GifMakeMapObject, hmade, if_true, htake,
      Option.isNone_some, Bool.false_eq_true, if_false, if_neg hlen, hloc, if_neg hneg,
      hswap, hout, List.cons_append, List.nil_append, if_pos hput, CLI.exitnow] at h
    simp at h
  · refine ⟨f, table, m, rfl, ?_⟩
    simp only [CLI.main, if_neg hargc, hopen, hmap, GifMakeMapObject, hmade, if_true, htake,
      Option.isNone_some, Bool.false_eq_true, if_false, if_neg hlen, hloc, if_neg hneg,
      hswap, hout, List.cons_append, List.nil_append, if_neg hput]

/-- The record types written by a run of `main` that ends with status 0: those of
the records read for which the loop writes a record. -/
theorem CLI.main_record_types (argv : CLI.Argv) (w : World) (f : GifFileType)
    (hopen : w.DGifOpenFileName argv.input_filename = some f)
    (h : (CLI.main argv w).outcome = .exit 0) :
    outputRecordTypes (CLI.main argv w).trace
      = ((recordsRead f.records).filter Record.isWritten).map Record.type := by
  obtain ⟨f', table, m, hopen', hmain⟩ := CLI.main_exit_zero argv w h
  rw [hopen] at hopen'
  cases hopen'
  rw [hmain] at h ⊢
  rw [(CLI.recordLoop_inv w m f.records _).2.2 h]
  simp [outputRecordTypes, Event.recordType]

/-- C9 as amended. Order preservation of the command line variant: for a run that
goes through the record loop up to the terminate record without a failure (its
exit status is 0), when every extension record read has at least one sub-block,
the sequence of record types (image, extension, terminate) written to the output
is the sequence of record types read from the input. -/
theorem record_order_preserved (argv : CLI.Argv) (w : World) (gif_filein : GifFileType)
    (hopen : w.DGifOpenFileName argv.input_filename = some gif_filein)
    (hrun : (CLI.main argv w).outcome = .exit 0)
    (hchain : ∀ r ∈ recordsRead gif_filein.records, r.hasSubBlock = true) :
    outputRecordTypes (CLI.main argv w).trace = inputRecordTypes gif_filein.records := by
  rw [CLI.main_record_types argv w gif_filein hopen hrun]
  unfold inputRecordTypes
  congr 1
  apply List.filter_congr
  intro r hr
  cases r with
  | image desc lines => rfl
  | extension extcode chain => exact hchain _ hr
  | terminate => rfl
  | undefined => rfl
  | screenDesc => rfl

/-- Witness of C9 as amended: the record stream of the scenario (an extension of
one sub-block, an image, the terminate record). -/
theorem record_order_preserved_witness :
    outputRecordTypes
        (CLI.main scenarioArgv (quietWorld (inputFile scenarioTable scenarioRecords))).trace
      = inputRecordTypes scenarioRecords ∧
    inputRecordTypes scenarioRecords =
      [.EXTENSION_RECORD_TYPE, .IMAGE_DESC_RECORD_TYPE, .TERMINATE_RECORD_TYPE] :=
  ⟨record_order_preserved scenarioArgv (quietWorld (inputFile scenarioTable scenarioRecords))
      (inputFile scenarioTable scenarioRecords) rfl (by decide) (by decide),
    by decide⟩

/-- Counterexample to C9 as stated: the input whose records are a comment
extension with an empty chain of sub-blocks and the terminate record is processed
without failure (status 0); the types read are extension, terminate, and the only
type written is terminate: the extension record is dropped. -/
theorem record_order_counterexample :
    (CLI.main scenarioArgv (quietWorld (inputFile scenarioTable emptyChainRecords))).outcome
      = .exit 0 ∧
    inputRecordTypes emptyChainRecords = [.EXTENSION_RECORD_TYPE, .TERMINATE_RECORD_TYPE] ∧
    outputRecordTypes
        (CLI.main scenarioArgv (quietWorld (inputFile scenarioTable emptyChainRecords))).trace
      = [.TERMINATE_RECORD_TYPE] ∧
    outputRecordTypes
        (CLI.main scenarioArgv (quietWorld (inputFile scenarioTable emptyChainRecords))).trace
      ≠ inputRecordTypes emptyChainRecords := by
  decide

/-! ## Extension records -/

/-- The loop over the sub-blocks that follow the first one, when the decoder
gives the sub-blocks `blocks` and then `NULL`: the loop writes them in order; when
a write fails, what has been written is the beginning of them. -/
theorem CLI.extensionLoop_blocks (w : World) :
    ∀ (blocks : List ExtensionBlock) (tr : List Event),
      ((∀ t e, w.GIF_ERROR t e = false) →
        CLI.extensionLoop w (blocks.map some) tr
          = .ok (tr ++ blocks.map (fun b => Event.EGifPutExtensionBlock b.count b.bytes))) ∧
      (∀ tr', CLI.extensionLoop w (blocks.map some) tr = .ok tr' →
        tr' = tr ++ blocks.map (fun b => Event.EGifPutExtensionBlock b.count b.bytes)) ∧
      (∀ run, CLI.extensionLoop w (blocks.map some) tr = .error run →
        ∃ (pre post : List Event) (text : String),
          blocks.map (fun b => Event.EGifPutExtensionBlock b.count b.bytes) = pre ++ post ∧
          run = CLI.fatal w text (tr ++ pre)) := by
  intro blocks
  induction blocks with
  | nil =>
    intro tr
    simp only [List.map_nil, CLI.extensionLoop, List.append_nil]
    exact ⟨fun _ => trivial, fun tr' h => (by cases h; rfl), fun run h => (by cases h)⟩
  | cons b rest ih =>
    intro tr
    obtain ⟨ih1, ih2, ih3⟩ := ih (tr ++ [Event.EGifPutExtensionBlock b.count b.bytes])
    simp only [List.map_cons, CLI.extensionLoop]
    refine ⟨fun hw => ?_, ?_, ?_⟩
    · rw [if_neg (by simp [hw]), ih1 hw]
      simp
    · intro tr' h
      split at h
      · cases h
      · rw [ih2 tr' h]; simp
    · intro run h
      split at h
      · cases h
        exact ⟨[Event.EGifPutExtensionBlock b.count b.bytes], _, _, rfl, rfl⟩
      · obtain ⟨pre, post, text, hsplit, hrun⟩ := ih3 run h
        refine ⟨Event.EGifPutExtensionBlock b.count b.bytes :: pre, post, text, ?_, ?_⟩
        · simp [hsplit]
        · rw [hrun]; simp

/-- C10. Extension pass-through of the command line variant: for an extension
record with function code `extcode` and sub-blocks `blocks` (at least one), read
without failure, and whatever the swap index, the record loop writes the leader
with `extcode`, then the sub-blocks in order, each with its length byte and its
bytes, then one trailer. It does so when no write fails; whenever the case
returns, this is what it has written; and when a write fails, what it has written
is the beginning of that sequence. -/
theorem extension_pass_through (w : World) (marked_posidx : Int) (extcode : Int)
    (blocks : List ExtensionBlock) (hn : blocks ≠ []) (tr : List Event) :
    ((∀ t e, w.GIF_ERROR t e = false) →
      CLI.recordCase w marked_posidx (.extension extcode (blocks.map some)) tr
        = .ok (tr ++ extensionEvents extcode blocks)) ∧
    (∀ tr', CLI.recordCase w marked_posidx (.extension extcode (blocks.map some)) tr
        = .ok tr' → tr' = tr ++ extensionEvents extcode blocks) ∧
    (∀ run, CLI.recordCase w marked_posidx (.extension extcode (blocks.map some)) tr
        = .error run →
      ∃ (pre post : List Event) (text : String),
        extensionEvents extcode blocks = pre ++ post ∧
        run = CLI.fatal w text (tr ++ pre)) := by
  cases blocks with
  | nil => exact absurd rfl hn
  | cons b rest =>
    obtain ⟨l1, l2, l3⟩ := CLI.extensionLoop_blocks w rest
      (tr ++ [Event.EGifPutExtensionLeader extcode] ++
        [Event.EGifPutExtensionBlock b.count b.bytes])
    simp only [List.map_cons, CLI.recordCase, CLI.extensionCase, extensionEvents]
    refine ⟨fun hw => ?_, ?_, ?_⟩
    · rw [if_neg (by simp [hw]), if_neg (by simp [hw]), l1 hw]
      simp only [if_neg (show ¬ (w.GIF_ERROR _ _ = true) by simp [hw])]
      simp
    · intro tr' h
      split at h
      · cases h
      · split at h
        · cases h
        · split at h
          · cases h
          · rename_i tr1 htr1
            split at h
            · cases h
            · cases h
              rw [l2 tr1 htr1]; simp
    · intro run h
      split at h
      · cases h
        exact ⟨[Event.EGifPutExtensionLeader extcode], _, _, rfl, rfl⟩
      · split at h
        · cases h
          exact ⟨[Event.EGifPutExtensionLeader extcode,
            Event.EGifPutExtensionBlock b.count b.bytes], _,
            "Error putting extension block\n", rfl, by simp⟩
        · split at h
          · rename_i run0 hrun0
            cases h
            obtain ⟨pre, post, text, hsplit, hrun⟩ := l3 run hrun0
            refine ⟨[Event.EGifPutExtensionLeader extcode,
              Event.EGifPutExtensionBlock b.count b.bytes] ++ pre,
              post ++ [Event.EGifPutExtensionTrailer], text, ?_, ?_⟩
            · simp [hsplit]
            · rw [hrun]; simp
          · rename_i tr1 htr1
            split at h
            · cases h
              refine ⟨_, [], "Error putting extension block\n", (List.append_nil _).symm, ?_⟩
              rw [l2 tr1 htr1]
              simp
            · cases h

/-- Witness of C10: a record of two sub-blocks, with two swap indices. -/
theorem extension_pass_through_witness :
    CLI.recordCase (quietWorld (inputFile scenarioTable scenarioRecords)) 2
        (.extension 255 ([⟨3, [1, 2, 3]⟩, ⟨2, [0, 9]⟩].map some)) []
      = .ok [.EGifPutExtensionLeader 255, .EGifPutExtensionBlock 3 [1, 2, 3],
          .EGifPutExtensionBlock 2 [0, 9], .EGifPutExtensionTrailer] ∧
    CLI.recordCase (quietWorld (inputFile scenarioTable scenarioRecords)) 0
        (.extension 255 ([⟨3, [1, 2, 3]⟩, ⟨2, [0, 9]⟩].map some)) []
      = .ok [.EGifPutExtensionLeader 255, .EGifPutExtensionBlock 3 [1, 2, 3],
          .EGifPutExtensionBlock 2 [0, 9], .EGifPutExtensionTrailer] :=
  ⟨(extension_pass_through (quietWorld (inputFile scenarioTable scenarioRecords)) 2 255
      [⟨3, [1, 2, 3]⟩, ⟨2, [0, 9]⟩] (by decide) []).1 (fun _ _ => rfl),
    (extension_pass_through (quietWorld (inputFile scenarioTable scenarioRecords)) 0 255
      [⟨3, [1, 2, 3]⟩, ⟨2, [0, 9]⟩] (by decide) []).1 (fun _ _ => rfl)⟩

/-! ## Image records -/

/-- The scanline loop when the decoder gives the lines `lines`, each of `Width`
entries: the loop writes each line translated, in order; when a write fails, what
has been written is the beginning of them. -/
theorem CLI.lineLoop_lines (w : World) (m : Int) (Width : Nat) :
    ∀ (lines : List (List GifPixelType)) (tr : List Event),
      (∀ line ∈ lines, line.length = Width) →
      ((∀ t e, w.GIF_ERROR t e = false) →
        CLI.lineLoop w m Width lines.length (lines.map some) tr
          = .ok (tr ++ lines.map (fun line => Event.EGifPutLine (line.map (remap m))))) ∧
      (∀ tr', CLI.lineLoop w m Width lines.length (lines.map some) tr = .ok tr' →
        tr' = tr ++ lines.map (fun line => Event.EGifPutLine (line.map (remap m)))) ∧
      (∀ run, CLI.lineLoop w m Width lines.length (lines.map some) tr = .error run →
        ∃ (pre post : List Event) (text : String),
          lines.map (fun line => Event.EGifPutLine (line.map (remap m))) = pre ++ post ∧
          run = CLI.fatal w text (tr ++ pre)) := by
  intro lines
  induction lines with
  | nil =>
    intro tr _
    simp only [List.length_nil, List.map_nil, CLI.lineLoop, List.append_nil]
    exact ⟨fun _ => trivial, fun tr' h => (by cases h; rfl), fun run h => (by cases h)⟩
  | cons line rest ih =>
    intro tr hlen
    have hline : line.length = Width := hlen line (List.mem_cons_self _ _)
    have hrest : ∀ l ∈ rest, l.length = Width :=
      fun l hl => hlen l (List.mem_cons_of_mem _ hl)
    have htr : translate m Width line = line.map (remap m) := by
      rw [← hline]; exact translate_length_eq_map m line
    obtain ⟨ih1, ih2, ih3⟩ := ih (tr ++ [Event.EGifPutLine (line.map (remap m))]) hrest
    simp only [List.length_cons, List.map_cons, CLI.lineLoop, htr]
    rw [if_neg (by simp [hline])]
    refine ⟨fun hw => ?_, ?_, ?_⟩
    · rw [if_neg (by simp [hw]), ih1 hw]
      simp
    · intro tr' h
      split at h
      · cases h
      · rw [ih2 tr' h]; simp
    · intro run h
      split at h
      · cases h
        exact ⟨[Event.EGifPutLine (line.map (remap m))], _,
          "Error putting line into output file\n", rfl, rfl⟩
      · obtain ⟨pre, post, text, hsplit, hrun⟩ := ih3 run h
        refine ⟨Event.EGifPutLine (line.map (remap m)) :: pre, post, text, ?_, ?_⟩
        · simp [hsplit]
        · rw [hrun]; simp

/-- The translation of the code is the remapper of the specification, for a swap
index that fits in a byte. -/
theorem remap_eq_specRemap (s : Nat) (hs : s < 256) : remap (s : Int) = specRemap s := by
  funext v
  rw [remap_eq s hs]
  rfl

/-- C11. Image record processing of the command line variant: for an image
record with geometry and interlace flag `Image`, whose `Image.Height` lines of
`Image.Width` entries are read without failure, and a swap index `s` (an index of
a color table, so below 256), the record loop writes the image descriptor with
the same left, top, width, height and interlace flag, then the lines in the order
read, each of the same length and with every entry remapped. It does so when no
write fails; whenever the case returns, this is what it has written; and when a
write fails, what it has written is the beginning of that sequence. -/
theorem image_record_processing (w : World) (s : Nat) (hs : s < 256) (Image : GifImageDesc)
    (lines : List (List GifPixelType)) (hheight : lines.length = Image.Height)
    (hwidth : ∀ line ∈ lines, line.length = Image.Width) (tr : List Event) :
    ((∀ t e, w.GIF_ERROR t e = false) →
      CLI.recordCase w (s : Int) (.image (some Image) (lines.map some)) tr
        = .ok (tr ++ imageEvents s Image lines)) ∧
    (∀ tr', CLI.recordCase w (s : Int) (.image (some Image) (lines.map some)) tr = .ok tr' →
      tr' = tr ++ imageEvents s Image lines) ∧
    (∀ run, CLI.recordCase w (s : Int) (.image (some Image) (lines.map some)) tr
        = .error run →
      ∃ (pre post : List Event) (text : String),
        imageEvents s Image lines = pre ++ post ∧ run = CLI.fatal w text (tr ++ pre)) ∧
    (lines.map (fun line => line.map (specRemap s))).length = Image.Height ∧
    (∀ out ∈ lines.map (fun line => line.map (specRemap s)), out.length = Image.Width) := by
  obtain ⟨l1, l2, l3⟩ := CLI.lineLoop_lines w (s : Int) Image.Width lines
    (tr ++ [Event.EGifPutImageDesc Image.Left Image.Top Image.Width Image.Height
      Image.Interlace Image.ColorMap]) hwidth
  rw [hheight, remap_eq_specRemap s hs] at l1 l2 l3
  simp only [CLI.recordCase, CLI.imageCase, imageEvents]
  refine ⟨fun hw => ?_, ?_, ?_, by simp [hheight], ?_⟩
  · rw [if_neg (by simp [hw]), l1 hw]
    simp
  · intro tr' h
    split at h
    · cases h
    · rw [l2 tr' h]; simp
  · intro run h
    split at h
    · cases h
      exact ⟨[Event.EGifPutImageDesc Image.Left Image.Top Image.Width Image.Height
        Image.Interlace Image.ColorMap], _, "Error putting image destination\n", rfl, rfl⟩
    · obtain ⟨pre, post, text, hsplit, hrun⟩ := l3 run h
      refine ⟨Event.EGifPutImageDesc Image.Left Image.Top Image.Width Image.Height
        Image.Interlace Image.ColorMap :: pre, post, text, ?_, ?_⟩
      · simp [hsplit]
      · rw [hrun]; simp
  · intro out hout
    obtain ⟨line, hline, rfl⟩ := List.mem_map.1 hout
    simpa using hwidth line hline

/-- Witness of C11: an image of two lines of four pixels, swap index 2. -/
theorem image_record_processing_witness :
    CLI.recordCase (quietWorld (inputFile scenarioTable scenarioRecords)) 2
        (.image (some ⟨1, 3, 4, 2, true, none⟩) ([[2, 0, 1, 3], [0, 0, 2, 2]].map some)) []
      = .ok [.EGifPutImageDesc 1 3 4 2 true none, .EGifPutLine [0, 2, 1, 3],
          .EGifPutLine [2, 2, 0, 0]] :=
  (image_record_processing (quietWorld (inputFile scenarioTable scenarioRecords)) 2
    (by decide) ⟨1, 3, 4, 2, true, none⟩ [[2, 0, 1, 3], [0, 0, 2, 2]] rfl (by decide) []).1
    (fun _ _ => rfl)

/-! ## Background color index -/

/-- A run of `main` that ends with status 0, for an input with the global color
table `cm`: the target occurs once in the table, at an index `s`, and the run is
the record loop after the three calls on the output file, the screen descriptor
carrying the swapped table. -/
theorem CLI.main_exit_zero_swap (argv : CLI.Argv) (w : World) (f : GifFileType)
    (cm : ColorMapObject)
    (hopen : w.DGifOpenFileName argv.input_filename = some f)
    (hmap : f.SColorMap = some cm)
    (h : (CLI.main argv w).outcome = .exit 0) :
    ∃ (s : Nat) (table : List GifColorType),
      cm.Colors.count (CLI.target_trans_color argv) = 1 ∧
      s < cm.Colors.length ∧
      cm.Colors[s]? = some (CLI.target_trans_color argv) ∧
      swapColors cm.Colors s = some table ∧
      CLI.main argv w = CLI.recordLoop w (s : Int) f.records
        [.EGifOpenFileName argv.output_filename, .EGifSetGifVersion true,
          .EGifPutScreenDesc f.SWidth f.SHeight f.SColorResolution f.SBackGroundColor
            ⟨table⟩] := by
  by_cases hargc : argv.argc < 6
  · simp only [CLI.main, if_pos hargc] at h
    split at h <;> simp at h
  have hargc' : 6 ≤ argv.argc := by omega
  by_cases hcount : cm.Colors.count (CLI.target_trans_color argv) = 1
  · cases hmade : w.mapObjectMade with
    | false =>
      simp [CLI.main, hargc, hopen, hmap, GifMakeMapObject, hmade, CLI.exitnow] at h
    | true =>
      obtain ⟨_, l1, _⟩ := locator_by_count cm.Colors (CLI.target_trans_color argv)
      obtain ⟨s, hs, hget, _, hloc⟩ := l1 hcount
      obtain ⟨table, hsw, _, _⟩ := swapColors_getElem? cm.Colors s hs
      cases hout : w.EGifOpenFileName argv.output_filename with
      | some error_code =>
        have hlen : ¬ cm.ColorCount ≤ 0 := by
          unfold ColorMapObject.ColorCount; omega
        have htake : List.take cm.ColorCount cm.Colors = cm.Colors := by
          unfold ColorMapObject.ColorCount; simp
        have hneg : ¬ ((s : Int) < 0) := by omega
        simp only [CLI.main, if_neg hargc, hopen, hmap, GifMakeMapObject, hmade, if_true,
          htake, Option.isNone_some, Bool.false_eq_true, if_false, if_neg hlen, hloc,
          if_neg hneg, Int.toNat_ofNat, hsw, hout, CLI.exitnow] at h
        simp at h
      | none =>
        have hmain := CLI.main_located argv w f cm s table hargc' hopen hmap hmade hloc hs
          hsw hout
        refine ⟨s, table, hcount, hs, hget, hsw, ?_⟩
        rw [hmain] at h ⊢
        split
        · rename_i hput
          rw [if_pos hput] at h
          simp [CLI.exitnow] at h
        · rfl
  · obtain ⟨⟨text, hrun⟩, _, _⟩ := CLI.main_not_located argv w f cm hargc' hopen hmap hcount
    rw [hrun] at h
    simp [CLI.exitnow] at h

/-- The swapped table differs from the table at the indices 0 and `s` and at no
other index, when the entries 0 and `s` of the table differ. -/
theorem swapColors_differs (t table : List GifColorType) (s : Nat) (hs : s < t.length)
    (hsw : swapColors t s = some table) (hne : t[0]? ≠ t[s]?) :
    ∀ j : Nat, table[j]? ≠ t[j]? ↔ (j = 0 ∨ j = s) := by
  obtain ⟨t', hsw', _, hget⟩ := swapColors_getElem? t s hs
  rw [hsw] at hsw'
  cases hsw'
  intro j
  rw [hget j]
  by_cases hj0 : j = 0
  · subst hj0
    simp only [if_true, true_or, iff_true]
    exact fun e => hne e.symm
  · by_cases hjs : j = s
    · subst hjs
      simp only [if_neg hj0, if_true, or_true, iff_true]
      exact hne
    · simp [hj0, hjs]

/-- C16. Background index of the command line variant: in a successful run the
background color index of the input is passed to `EGifPutScreenDesc` as it is,
with the swapped table; for a swap index `s ≠ 0` the swapped table differs from
the input table at the indices 0 and `s` and at no other, so a background index
equal to 0 or to `s` denotes in the output table a color other than the one it
denotes in the input table. -/
theorem background_not_remapped (argv : CLI.Argv) (w : World) (gif_filein : GifFileType)
    (SColorMap : ColorMapObject)
    (hopen : w.DGifOpenFileName argv.input_filename = some gif_filein)
    (hmap : gif_filein.SColorMap = some SColorMap)
    (hrun : (CLI.main argv w).outcome = .exit 0) :
    ∃ (s : Nat) (table : List GifColorType) (rest : List Event),
      SColorMap.Colors[s]? = some (CLI.target_trans_color argv) ∧
      swapColors SColorMap.Colors s = some table ∧
      (CLI.main argv w).trace =
        [.EGifOpenFileName argv.output_filename, .EGifSetGifVersion true,
          .EGifPutScreenDesc gif_filein.SWidth gif_filein.SHeight
            gif_filein.SColorResolution gif_filein.SBackGroundColor ⟨table⟩] ++ rest ∧
      (∀ e ∈ rest, e.afterScreenDesc = true) ∧
      (s ≠ 0 →
        (∀ j : Nat, table[j]? ≠ SColorMap.Colors[j]? ↔ (j = 0 ∨ j = s)) ∧
        (gif_filein.SBackGroundColor = 0 ∨ gif_filein.SBackGroundColor = s →
          lookup table gif_filein.SBackGroundColor
            ≠ lookup SColorMap.Colors gif_filein.SBackGroundColor)) := by
  obtain ⟨s, table, hcount, hs, hget, hsw, hmain⟩ :=
    CLI.main_exit_zero_swap argv w gif_filein SColorMap hopen hmap hrun
  obtain ⟨rest, hrest, hall⟩ : Extends
      [.EGifOpenFileName argv.output_filename, .EGifSetGifVersion true,
        .EGifPutScreenDesc gif_filein.SWidth gif_filein.SHeight
          gif_filein.SColorResolution gif_filein.SBackGroundColor ⟨table⟩]
      (CLI.main argv w).trace := by
    rw [hmain]
    exact (CLI.recordLoop_inv w (s : Int) gif_filein.records _).1
  refine ⟨s, table, rest, hget, hsw, hrest, hall, ?_⟩
  intro hs0
  have hne : SColorMap.Colors[0]? ≠ SColorMap.Colors[s]? := by
    intro e
    rw [hget] at e
    obtain ⟨_, l1, _⟩ := locator_by_count SColorMap.Colors (CLI.target_trans_color argv)
    obtain ⟨i, _, hi, huniq, _⟩ := l1 hcount
    have h0 : 0 = i := huniq 0 e
    have h1 : s = i := huniq s hget
    exact hs0 (h1.trans h0.symm)
  have hdiff := swapColors_differs SColorMap.Colors table s hs hsw hne
  refine ⟨hdiff, ?_⟩
  intro hb
  unfold lookup
  exact (hdiff gif_filein.SBackGroundColor).2 hb

/-- Witness of C16: scenario A, whose background index is 0 and whose swap
index is 2. -/
theorem background_not_remapped_witness :
    ∃ (s : Nat) (table : List GifColorType) (rest : List Event),
      scenarioTable[s]? = some (CLI.target_trans_color scenarioArgv) ∧
      swapColors scenarioTable s = some table ∧
      (CLI.main scenarioArgv (quietWorld (inputFile scenarioTable scenarioRecords))).trace =
        [.EGifOpenFileName "output.gif", .EGifSetGifVersion true,
          .EGifPutScreenDesc 2 2 2 0 ⟨table⟩] ++ rest ∧
      (∀ e ∈ rest, e.afterScreenDesc = true) ∧
      (s ≠ 0 →
        (∀ j : Nat, table[j]? ≠ scenarioTable[j]? ↔ (j = 0 ∨ j = s)) ∧
        ((0 : Nat) = 0 ∨ (0 : Nat) = s → lookup table 0 ≠ lookup scenarioTable 0)) :=
  background_not_remapped scenarioArgv (quietWorld (inputFile scenarioTable scenarioRecords))
    (inputFile scenarioTable scenarioRecords) ⟨scenarioTable⟩ rfl rfl (by decide)

/-- The background index of scenario A in the input and in the output: index 0
is `(0,253,255)` in the input table and `(1,2,3)` in the table written. -/
theorem background_scenario :
    lookup scenarioTable 0 = some ⟨0, 253, 255⟩ ∧
    (CLI.main scenarioArgv (quietWorld (inputFile scenarioTable scenarioRecords))).trace[2]?
      = some (.EGifPutScreenDesc 2 2 2 0
          ⟨[⟨1, 2, 3⟩, ⟨10, 10, 10⟩, ⟨0, 253, 255⟩, ⟨4, 5, 6⟩]⟩) ∧
    lookup [⟨1, 2, 3⟩, ⟨10, 10, 10⟩, ⟨0, 253, 255⟩, ⟨4, 5, 6⟩] 0 = some ⟨1, 2, 3⟩ := by
  decide

/-! ## Local color maps and missing global color table -/

/-- For an image that has no local color map, the translated pixel denotes in
the swapped global table the color that the pixel denotes in the global table of
the input. -/
theorem global_table_pixel_kept (t : List GifColorType) (s : Nat) (hs : s < t.length)
    (hlen : t.length ≤ 256) (v : GifPixelType) :
    ∃ table : List GifColorType, swapColors t s = some table ∧
      lookup (tableInEffect table none) (remap (s : Int) v)
        = lookup (tableInEffect t none) v := by
  obtain ⟨table, hsw, _, hget⟩ := swapColors_getElem? t s hs
  refine ⟨table, hsw, ?_⟩
  simp only [tableInEffect, lookup]
  rw [remap_eq s (by omega), hget]
  by_cases h1 : v = s
  · simp [h1]
  · by_cases h2 : v = 0
    · subst h2
      have h3 : ¬ (s = 0) := fun e => h1 e.symm
      simp [h1, h3]
    · simp [h1, h2]

/-- For an image that has a local color map whose entries 0 and `s` differ, the
pixel 0 is translated to `s`, which denotes another color in the local color map:
the map is written with the image descriptor as it is, and the pixels are
translated all the same. -/
theorem local_table_pixel_differs (globalIn globalOut : List GifColorType)
    (m : ColorMapObject) (s : Nat) (hs : s < 256) (hs0 : s ≠ 0)
    (hne : m.Colors[0]? ≠ m.Colors[s]?) :
    lookup (tableInEffect globalOut (some m)) (remap (s : Int) 0)
      ≠ lookup (tableInEffect globalIn (some m)) 0 := by
  simp only [tableInEffect, lookup]
  rw [remap_eq s hs]
  have h : ¬ ((0 : Nat) = s) := fun e => hs0 e.symm
  rw [if_neg h, if_pos rfl]
  exact fun e => hne e.symm

/-- C12, the run on the failing input: the target `(1,2,3)` is at index 2 of the
global table; the image has the local color map `localTable` and the line
`[0, 1]`. The run ends with status 0; the image descriptor is written with the
local color map unchanged and the line is written as `[2, 1]`. The first pixel
denotes `(9,9,9)` in the input (index 0 of the local map) and `(7,7,7)` in the
output (index 2 of the same map). -/
theorem local_table_pixel_changed :
    CLI.main scenarioArgv (quietWorld (inputFile scenarioTable localMapRecords)) =
      ⟨[.EGifOpenFileName "output.gif", .EGifSetGifVersion true,
          .EGifPutScreenDesc 2 2 2 0
            ⟨[⟨1, 2, 3⟩, ⟨10, 10, 10⟩, ⟨0, 253, 255⟩, ⟨4, 5, 6⟩]⟩,
          .EGifPutImageDesc 0 0 2 1 false (some ⟨localTable⟩), .EGifPutLine [2, 1],
          .DGifCloseFile, .EGifCloseFile, .GifFreeMapObject], .exit 0⟩ ∧
    lookup (tableInEffect scenarioTable (some ⟨localTable⟩)) 0 = some ⟨9, 9, 9⟩ ∧
    lookup (tableInEffect [⟨1, 2, 3⟩, ⟨10, 10, 10⟩, ⟨0, 253, 255⟩, ⟨4, 5, 6⟩]
      (some ⟨localTable⟩)) 2 = some ⟨7, 7, 7⟩ := by
  decide

/-- With no global color table `main` dereferences the `NULL` table in the call
of `GifMakeMapObject`, before the test `gif_filein->SColorMap == NULL`. -/
theorem CLI.main_no_color_table (argv : CLI.Argv) (w : World) (f : GifFileType)
    (hargc : 6 ≤ argv.argc)
    (hopen : w.DGifOpenFileName argv.input_filename = some f)
    (hmap : f.SColorMap = none) :
    CLI.main argv w = ⟨[], .crash⟩ := by
  have hargc' : ¬ argv.argc < 6 := by omega
  simp only [CLI.main, if_neg hargc', hopen, hmap]

/-- C15, the run on the failing input: an input that is opened and has no global
color table. The run is a crash with no event: the message "No colormap for
input.gif" is not printed, the cleanup is not done and the status is not 1. -/
theorem missing_color_table_crash :
    CLI.main scenarioArgv (quietWorld noTableFile) = ⟨[], .crash⟩ ∧
    CLI.main scenarioArgv (quietWorld noTableFile) ≠
      CLI.exitnow 1 "No colormap for input.gif\n"
        (cleanup_res (quietWorld noTableFile) true false true []) := by
  decide

/-! ## The hardcoded-filename variant -/

/-- The translation loop with a bound: the entries before the bound are
translated, the entries from the bound on are left as they are. -/
theorem translate_eq_take_drop (m : Int) :
    ∀ (bound : Nat) (line : List GifPixelType),
      translate m bound line = (line.take bound).map (remap m) ++ line.drop bound := by
  intro bound
  induction bound with
  | zero => intro line; simp [translate]
  | succ n ih =>
    intro line
    cases line with
    | nil => simp [translate]
    | cons cp rest => simp [translate, ih]

/-- In the hardcoded variant `exitnow` gives the control back: it adds the text
to the events and leaves the pointers and the run as they are. -/
theorem Hardcoded.exitnow_returns (status : Int) (text : String) (v : Hardcoded.Vars) :
    (Hardcoded.exitnow status text v).tr = v.tr ++ [.stderr text] ∧
    (Hardcoded.exitnow status text v).gif_filein = v.gif_filein ∧
    (Hardcoded.exitnow status text v).gif_fileout = v.gif_fileout ∧
    (Hardcoded.exitnow status text v).colormap = v.colormap :=
  ⟨rfl, rfl, rfl, rfl⟩

/-- The hardcoded variant never ends with an exit status other than 0: whatever
the library answers, `main` returns 0 or stops with undefined behaviour. -/
theorem Hardcoded.main_stop (w : World) :
    (Hardcoded.main w).stop = .returned 0 ∨
      ∃ step, (Hardcoded.main w).stop = .undefinedAt step := by
  unfold Hardcoded.main
  cases Hardcoded.body w with
  | ok tr => exact Or.inl rfl
  | error fault => exact Or.inr ⟨fault.step, rfl⟩

/-- One turn of the scanline loop of the hardcoded variant, for a line of
`Image.Width` entries read without failure and a height that is at most the
width: the line written has its first `Image.Height` entries translated and the
others as they were read. -/
theorem Hardcoded.lineLoop_turn (w : World) (m : Int) (Image : GifImageDesc) (n : Nat)
    (got : List GifPixelType) (rest : List (Option (List GifPixelType)))
    (v : Hardcoded.Vars) (f : GifFileType) (out : Hardcoded.OutFile)
    (hin : v.gif_filein = some f) (hout : v.gif_fileout = some out)
    (hgot : got.length = Image.Width) (hle : Image.Height ≤ Image.Width)
    (hput : ∀ t e, w.GIF_ERROR t e = false) :
    Hardcoded.lineLoop w m Image (n + 1) (some got :: rest) v =
      Hardcoded.lineLoop w m Image n rest
        (v.log [.EGifPutLine ((got.take Image.Height).map (remap m) ++
          got.drop Image.Height)]) := by
  have hlt : ¬ Image.Width < Image.Height := by omega
  simp [Hardcoded.lineLoop, Hardcoded.deref, Hardcoded.put, hin, hout, hgot, hlt, hput,
    translate_eq_take_drop, bind, Except.bind, pure, Except.pure]

/-- One turn of the scanline loop of the hardcoded variant when the height is
above the width: undefined behaviour, the translation loop leaves the buffer. -/
theorem Hardcoded.lineLoop_overflow (w : World) (m : Int) (Image : GifImageDesc) (n : Nat)
    (got : List GifPixelType) (rest : List (Option (List GifPixelType)))
    (v : Hardcoded.Vars) (f : GifFileType)
    (hin : v.gif_filein = some f)
    (hgot : got.length = Image.Width) (hlt : Image.Width < Image.Height) :
    Hardcoded.lineLoop w m Image (n + 1) (some got :: rest) v
      = .error ⟨v.tr, .recordLoop⟩ := by
  simp [Hardcoded.lineLoop, Hardcoded.deref, hin, hgot, hlt, bind, Except.bind]

/-- C13, the runs on failing inputs. In the hardcoded variant, after the cleanup
and the text of a fatal condition the run is not over: it goes on into the next
statements and stops with undefined behaviour in a later step, not with an exit
status. (1) The target twice in the table: the locator loop goes on and reads the
released table. (2) The output file cannot be opened: the step of the screen
descriptor is entered and dereferences `gif_filein`, which is `NULL`. (3)
`EGifPutScreenDesc` fails: the record loop is entered and calls the decoder on
`gif_filein`, which is `NULL`. (4) The input file cannot be opened: the color map
is made from the `NULL` file. The command line variant, whose `exitnow` calls
`exit`, ends the same input as (1) with status 1. -/
theorem hardcoded_fatal_goes_on :
    Hardcoded.main (quietWorld (inputFile duplicateTargetTable scenarioRecords)) =
      ⟨[.stdout "Colors: 4\n", .DGifCloseFile, .GifFreeMapObject,
        .stderr "There should not be duplicated transparent color in colormap. Quit now."],
        .undefinedAt .locator⟩ ∧
    Hardcoded.main (outputOpenFails (inputFile hardcodedTable scenarioRecords)) =
      ⟨[.stdout "Colors: 4\n", .EGifOpenFileName "output.gif", .DGifCloseFile,
        .GifFreeMapObject,
        .stderr "Error opening output file output.gif to write [error code: 2]"],
        .undefinedAt .screenDesc⟩ ∧
    Hardcoded.main (screenDescFails (inputFile hardcodedTable scenarioRecords)) =
      ⟨[.stdout "Colors: 4\n", .EGifOpenFileName "output.gif",
        .EGifPutScreenDesc 2 2 2 0 ⟨hardcodedTable⟩,
        .DGifCloseFile, .EGifCloseFile, .GifFreeMapObject,
        .stderr "Cannot put screen description to output file output.gif"],
        .undefinedAt .recordLoop⟩ ∧
    Hardcoded.main inputOpenFails =
      ⟨[.stderr "Error opening gif file input.gif"], .undefinedAt .makeColormap⟩ ∧
    CLI.main hardcodedArgv (quietWorld (inputFile duplicateTargetTable scenarioRecords)) =
      ⟨[.DGifCloseFile, .GifFreeMapObject,
        .stderr "There should not be duplicated transparent color in colormap. Quit now.\n"],
        .exit 1⟩ := by
  decide

/-- C14, the runs on failing inputs. The target is at index 2 of the table. (1)
An image of width 4 and height 2 with the lines `[0, 1, 2, 0]` and `[2, 2, 0, 0]`:
the run ends with status 0 and the lines written are `[2, 1, 2, 0]` and
`[0, 0, 0, 0]`: only the first two entries of each line are translated. The lines
with each of the four entries remapped are `[2, 1, 0, 2]` and `[0, 0, 2, 2]`. (2)
An image of width 2 and height 4: the translation loop goes past the end of the
buffer of two entries (undefined behaviour) and no line is written. -/
theorem hardcoded_remap_bound :
    Hardcoded.main (quietWorld (inputFile hardcodedTable wideImageRecords)) =
      ⟨[.stdout "Colors: 4\n", .EGifOpenFileName "output.gif",
        .EGifPutScreenDesc 2 2 2 0 ⟨hardcodedTable⟩,
        .EGifPutImageDesc 0 0 4 2 false
          (some ⟨[⟨0, 253, 255⟩, ⟨10, 10, 10⟩, ⟨1, 1, 1⟩, ⟨4, 5, 6⟩]⟩),
        .EGifPutLine [2, 1, 2, 0], .EGifPutLine [0, 0, 0, 0],
        .stdout "colors[0] =   1   1   1\n", .stdout "colors[1] =  10  10  10\n",
        .stdout "colors[2] =   0 253 255\n", .stdout "colors[3] =   4   5   6\n",
        .DGifCloseFile, .EGifCloseFile, .GifFreeMapObject], .returned 0⟩ ∧
    [0, 1, 2, 0].map (specRemap 2) = [2, 1, 0, 2] ∧
    [2, 2, 0, 0].map (specRemap 2) = [0, 0, 2, 2] ∧
    Hardcoded.main (quietWorld (inputFile hardcodedTable tallImageRecords)) =
      ⟨[.stdout "Colors: 4\n", .EGifOpenFileName "output.gif",
        .EGifPutScreenDesc 2 2 2 0 ⟨hardcodedTable⟩,
        .EGifPutImageDesc 0 0 2 4 false
          (some ⟨[⟨0, 253, 255⟩, ⟨10, 10, 10⟩, ⟨1, 1, 1⟩, ⟨4, 5, 6⟩]⟩)],
        .undefinedAt .recordLoop⟩ ∧
    (CLI.main hardcodedArgv (quietWorld (inputFile hardcodedTable wideImageRecords))).trace
      = [.EGifOpenFileName "output.gif", .EGifSetGifVersion true,
        .EGifPutScreenDesc 2 2 2 0 ⟨[⟨0, 253, 255⟩, ⟨10, 10, 10⟩, ⟨1, 1, 1⟩, ⟨4, 5, 6⟩]⟩,
        .EGifPutImageDesc 0 0 4 2 false none,
        .EGifPutLine [2, 1, 0, 2], .EGifPutLine [0, 0, 2, 2],
        .DGifCloseFile, .EGifCloseFile, .GifFreeMapObject] := by
  decide

end TColorSwap
